import Mathlib

/-!
Verification of the sync engine in `src/sync.cpp` (MEGA SDK sync rework).

This file gives a shallow embedding, in Lean, of the data model and the
operations of the synchronization core, translated from the C++ source:

* the state cache queues (`Sync::statecachedel`, `Sync::statecacheadd`,
  `Sync::cachenodes`),
* the per-row reconciliation decision (`Sync::syncItem`, `Sync::syncEqual`),
* the scan worker's fingerprint reuse (`ScanService::Worker::interrogate`),
* the file-is-changing guard (`MegaClient::checkIfFileIsChanging`),
* the triplet builder (`Sync::computeSyncTriplets`),
* the deletion resolvers (`Sync::resolve_delSyncNode`,
  `Sync::resolve_cloudNodeGone`),
* the scan-request interface (`ScanService::scan`, `ScanService::Worker::scan`).

Machine integers (`handle`, `m_time_t`, `m_off_t`, `uint32_t`) are modelled as
`Nat`/`Int`; none of the translated code paths exercise overflow.  Pointers are
modelled as `Option` values or as numeric identifiers with explicit lookup
maps.
-/

namespace Mega

/-- `nodetype_t` from the source: the three node types used by the sync code. -/
inductive Nodetype
  | TYPE_UNKNOWN
  | FILENODE
  | FOLDERNODE
deriving DecidableEq, Repr

/-- `syncstate_t`: lifecycle states of a `Sync`. -/
inductive Syncstate
  | SYNC_FAILED
  | SYNC_CANCELED
  | SYNC_INITIALSCAN
  | SYNC_ACTIVE
  | SYNC_DISABLED
deriving DecidableEq, Repr

/-- The `UNDEF` handle value (`~(handle)0`, a 64-bit all-ones pattern). -/
def UNDEF : Nat := 2 ^ 64 - 1

/-- A `FileFingerprint`: size, mtime and a content-derived checksum (`crc`). -/
structure Fingerprint where
  size : Int
  mtime : Int
  crc : Nat
deriving DecidableEq, Repr

/-! ## State cache model (`Sync::statecachedel` / `statecacheadd` / `cachenodes`)

`LocalNode` pointers are modelled as numeric node identifiers.  The mutable
per-node data the cache code reads and writes (`l->dbid`, `l->parent`,
`l->type`) is held in association lists keyed by the node identifier, so that
`statecachetable->put` updating a node's `dbid` is visible to later parent
checks, exactly as in the source. -/

/-- An operation issued to the `statecachetable` DB table, in issue order. -/
inductive TableOp
  | beginTxn
  | delRec (dbid : Nat)
  | putRec (nodeId : Nat)
  | commitTxn
deriving DecidableEq, Repr

/-- First-match association-list lookup with a default value. -/
def alookup (d : α) : List (Nat × α) → Nat → α
  | [], _ => d
  | (k, v) :: rest, x => if x = k then v else alookup d rest x

/-- Insertion into a mathematical set represented as a duplicate-free list
(`std::set` semantics: inserting a present element is a no-op). -/
def insertSet (x : Nat) (xs : List Nat) : List Nat :=
  if x ∈ xs then xs else xs ++ [x]

/-- The parts of a `Sync` the state-cache code touches.

* `dbid` maps a node id to its DB row id, `0` meaning "not in the DB yet"
  (C++ `l->dbid` is zero-initialised and set by `DbTable::put`).
* `parentOf` maps a node id to its parent's node id, with `0` reserved for
  the sync root (`localroot`), matching the source's
  `l->parent->dbid || l->parent == localroot.get()` test.
* `typeOf` maps a node id to its `nodetype_t` (default `FILENODE`).
* `tableOps` records the operations issued to `statecachetable`. -/
structure SyncDB where
  state : Syncstate
  hasStatecacheTable : Bool
  insertq : List Nat
  deleteq : List Nat
  dbid : List (Nat × Nat)
  nextid : Nat
  parentOf : List (Nat × Nat)
  typeOf : List (Nat × Nodetype)
  tableOps : List TableOp
  cachingFailure : Bool
deriving DecidableEq, Repr

/-- `l->dbid` for node `l`. -/
def SyncDB.dbidOf (st : SyncDB) (l : Nat) : Nat :=
  alookup 0 st.dbid l

/-- `l->type` for node `l`. -/
def SyncDB.nodeTypeOf (st : SyncDB) (l : Nat) : Nodetype :=
  alookup Nodetype.FILENODE st.typeOf l

/-- `Sync::statecachedel` (sync.cpp:823-836): a no-op when the sync is
`SYNC_CANCELED`; otherwise erase the node from `insertq` and, if it has a DB
row, queue that row id in `deleteq`. -/
def statecachedel (st : SyncDB) (l : Nat) : SyncDB :=
  if st.state = Syncstate.SYNC_CANCELED then st
  else
    let st1 := { st with insertq := st.insertq.erase l }
    if st1.dbidOf l ≠ 0 then
      { st1 with deleteq := insertSet (st1.dbidOf l) st1.deleteq }
    else st1

/-- `Sync::statecacheadd` (sync.cpp:839-852): a no-op when the sync is
`SYNC_CANCELED`; otherwise un-queue the node's DB row from `deleteq` (if it
has one) and queue the node in `insertq`. -/
def statecacheadd (st : SyncDB) (l : Nat) : SyncDB :=
  if st.state = Syncstate.SYNC_CANCELED then st
  else
    let st1 :=
      if st.dbidOf l ≠ 0 then { st with deleteq := st.deleteq.erase (st.dbidOf l) }
      else st
    { st1 with insertq := insertSet l st1.insertq }

/-- A call to one of the two queueing entry points. -/
inductive CacheOp
  | add (l : Nat)
  | del (l : Nat)
deriving DecidableEq, Repr

/-- The node identifier an operation refers to. -/
def CacheOp.nodeId : CacheOp → Nat
  | .add l => l
  | .del l => l

/-- Apply one queueing call. -/
def applyCacheOp (st : SyncDB) : CacheOp → SyncDB
  | .add l => statecacheadd st l
  | .del l => statecachedel st l

/-- Apply a sequence of queueing calls, left to right. -/
def applyCacheOps (st : SyncDB) (ops : List CacheOp) : SyncDB :=
  ops.foldl applyCacheOp st

/-- The two queues never refer to the same DB row: any queued node that
already has a DB row does not have that row queued for deletion. -/
def QueuesDisjoint (st : SyncDB) : Prop :=
  ∀ l ∈ st.insertq, st.dbidOf l ≠ 0 → st.dbidOf l ∉ st.deleteq

/-- The queue well-formedness the `std::set` representation guarantees. -/
def CacheInv (st : SyncDB) : Prop :=
  st.insertq.Nodup ∧ st.deleteq.Nodup ∧ QueuesDisjoint st

instance (st : SyncDB) : Decidable (QueuesDisjoint st) := by
  unfold QueuesDisjoint; infer_instance

instance (st : SyncDB) : Decidable (CacheInv st) := by
  unfold CacheInv; infer_instance

/-- Distinct nodes drawn from `S` have distinct DB rows (a nonzero `dbid`
identifies one serialized `LocalNode` record). -/
def DbidInjOn (st : SyncDB) (S : List Nat) : Prop :=
  ∀ a ∈ S, ∀ b ∈ S, st.dbidOf a ≠ 0 → st.dbidOf a = st.dbidOf b → a = b

instance (st : SyncDB) (S : List Nat) : Decidable (DbidInjOn st S) := by
  unfold DbidInjOn; infer_instance

/-- A concrete `Sync` used to instantiate the queue theorems: active, two
nodes (ids 1, 2) with DB rows 5 and 7. -/
def sampleActiveSync : SyncDB :=
  { state := Syncstate.SYNC_ACTIVE
    hasStatecacheTable := true
    insertq := []
    deleteq := []
    dbid := [(1, 5), (2, 7)]
    nextid := 8
    parentOf := []
    typeOf := []
    tableOps := []
    cachingFailure := false }

/-- A `Sync` in state `SYNC_FAILED` with one node (id 1) having DB row 5. -/
def sampleFailedSync : SyncDB :=
  { sampleActiveSync with state := Syncstate.SYNC_FAILED, dbid := [(1, 5)] }

/-- A `Sync` in state `SYNC_DISABLED` with one node (id 1) having DB row 5. -/
def sampleDisabledSync : SyncDB :=
  { sampleActiveSync with state := Syncstate.SYNC_DISABLED, dbid := [(1, 5)] }

/-- A `Sync` in state `SYNC_CANCELED` with one node (id 1) having DB row 5. -/
def sampleCanceledSync : SyncDB :=
  { sampleActiveSync with state := Syncstate.SYNC_CANCELED, dbid := [(1, 5)] }

/-! ## `Sync::cachenodes` (sync.cpp:854-898)

`cachenodes` applies the queued deletions, then repeatedly sweeps the
insertion queue, writing a node only when its parent already has a DB row (or
is the sync root), until a sweep makes no progress. -/

/-- The write gate from the sweep:
`(*it)->parent->dbid || (*it)->parent == localroot.get()`. -/
def parentOkB (st : SyncDB) (l : Nat) : Bool :=
  decide (alookup 0 st.parentOf l = 0) || decide (st.dbidOf (alookup 0 st.parentOf l) ≠ 0)

/-- Modelled from the spec: `DbTable::put` (persistence layer, not under
`src/`) — a "keyed append-update store over integer row IDs" with "a
monotonically increasing `nextid`": writing a node records the write and, on
first save, assigns the node the next row id. -/
def putNode (st : SyncDB) (l : Nat) : SyncDB :=
  if st.dbidOf l = 0 then
    { st with dbid := (l, st.nextid) :: st.dbid
              nextid := st.nextid + 1
              tableOps := st.tableOps ++ [TableOp.putRec l] }
  else { st with tableOps := st.tableOps ++ [TableOp.putRec l] }

/-- Result of one `for` sweep over the insertion queue inside `cachenodes`:
the updated table state, the nodes still queued, the nodes written (in write
order), and the C++ `added` flag. -/
structure SweepResult where
  st : SyncDB
  kept : List Nat
  puts : List Nat
  added : Bool
deriving Repr

/-- One sweep of the insertion queue (the inner `for` loop of `cachenodes`):
a node of unknown type is dropped; a node whose parent gate passes is written
and dropped, setting `added`; any other node stays queued. -/
def sweepOnce : SyncDB → List Nat → SweepResult
  | st, [] => ⟨st, [], [], false⟩
  | st, l :: rest =>
    if st.nodeTypeOf l = Nodetype.TYPE_UNKNOWN then
      sweepOnce st rest
    else if parentOkB st l = true then
      let r := sweepOnce (putNode st l) rest
      ⟨r.st, r.kept, l :: r.puts, true⟩
    else
      let r := sweepOnce st rest
      ⟨r.st, l :: r.kept, r.puts, r.added⟩

/-- The `do { ... } while (added)` drain loop of `cachenodes`.  The fuel is
only a structural-recursion device; `cachenodes` passes one more than the
queue length, which always suffices because a sweep with `added` set shrinks
the queue. -/
def drainFuel : Nat → SyncDB → List Nat → SyncDB × List Nat × List Nat
  | 0, st, q => (st, q, [])
  | fuel + 1, st, q =>
    let r := sweepOnce st q
    if r.added = true then
      let d := drainFuel fuel r.st r.kept
      (d.1, d.2.1, r.puts ++ d.2.2)
    else (r.st, r.kept, r.puts)

/-- The `begin` and deletion phase of `cachenodes`: open the transaction and
apply every queued deletion, clearing `deleteq`. -/
def beginAndDel (st : SyncDB) : SyncDB :=
  { st with
      tableOps := st.tableOps ++ [TableOp.beginTxn] ++ st.deleteq.map TableOp.delRec
      deleteq := [] }

/-- The addition drain of `cachenodes`, run on the post-deletion state. -/
def drainResult (st2 : SyncDB) : SyncDB × List Nat × List Nat :=
  drainFuel (st2.insertq.length + 1) st2 st2.insertq

/-- The state after the drain and the `commit`: the insertion queue holds the
unwritten residue and the commit is recorded. -/
def afterCommit (st2 : SyncDB) : SyncDB :=
  { (drainResult st2).1 with
      insertq := (drainResult st2).2.1
      tableOps := (drainResult st2).1.tableOps ++ [TableOp.commitTxn] }

/-- `Sync::cachenodes` (sync.cpp:854-898): when a state-cache table is
present, the sync is active or in initial scan, and something is queued:
begin a transaction, apply every queued deletion, drain the insertion queue
in sweeps until no progress, commit, and log a caching failure if nodes
remain unwritten. -/
def cachenodes (st : SyncDB) : SyncDB :=
  if st.hasStatecacheTable = true ∧
      (st.state = Syncstate.SYNC_ACTIVE ∨ st.state = Syncstate.SYNC_INITIALSCAN) ∧
      (st.deleteq ≠ [] ∨ st.insertq ≠ []) then
    if (afterCommit (beginAndDel st)).insertq = [] then afterCommit (beginAndDel st)
    else { afterCommit (beginAndDel st) with cachingFailure := true }
  else st

/-- Writing the nodes `ids` in order, as `cachenodes` would. -/
def applyPuts (st : SyncDB) (ids : List Nat) : SyncDB :=
  ids.foldl putNode st

/-- Each node in the list passes the parent gate at the moment it is
written, the earlier writes (and their `dbid` assignments) included. -/
def PutsRespectParents : SyncDB → List Nat → Prop
  | _, [] => True
  | st, l :: rest => parentOkB st l = true ∧ PutsRespectParents (putNode st l) rest

/-- The fields of a `SyncDB` that a table write never touches, bundled. -/
def cacheAux (st : SyncDB) :
    Syncstate × Bool × List Nat × List Nat × List (Nat × Nat) ×
      List (Nat × Nodetype) × Bool :=
  (st.state, st.hasStatecacheTable, st.insertq, st.deleteq, st.parentOf,
    st.typeOf, st.cachingFailure)

/-- A concrete sync whose drain needs two sweeps: node 2 (child of node 1,
which already has DB row 4) becomes writable first; node 3 (child of node 2)
only once node 2 has been written. -/
def sampleDrainSync : SyncDB :=
  { state := Syncstate.SYNC_ACTIVE
    hasStatecacheTable := true
    insertq := [3, 2]
    deleteq := [9]
    dbid := [(1, 4)]
    nextid := 5
    parentOf := [(2, 1), (3, 2)]
    typeOf := []
    tableOps := []
    cachingFailure := false }

/-! ## Filesystem data model (`FSNode`, node.h:362-375) -/

/-- `FSNode`: the attributes of one filesystem item, as produced by the scan
worker.  Leaf names are modelled as strings; `fingerprint = none` models an
invalid (never computed) `FileFingerprint`, as for directories. -/
structure FSNode where
  localname : String
  shortname : Option String := none
  type : Nodetype := Nodetype.TYPE_UNKNOWN
  size : Int := 0
  mtime : Int := 0
  fsid : Nat := UNDEF
  isSymlink : Bool := false
  isBlocked : Bool := false
  fingerprint : Option Fingerprint := none
deriving DecidableEq, Repr

/-- The sync-relevant attributes of a `LocalNode` (node.h:397-...): the
cloud-canonical `name`, the filesystem `localname`, the `fsid` (or `UNDEF`),
the synced cloud handle (or `UNDEF`), the type, and the file fingerprint. -/
structure LocalNode where
  name : String
  localname : String
  type : Nodetype := Nodetype.TYPE_UNKNOWN
  fsid : Nat := UNDEF
  syncedCloudNodeHandle : Nat := UNDEF
  fingerprint : Option Fingerprint := none
deriving DecidableEq, Repr

/-- The sync-relevant attributes of a cloud `Node`: its display name, its
handle, its type, and (for files) its fingerprint. -/
structure CloudNode where
  name : String
  nodehandle : Nat
  type : Nodetype := Nodetype.TYPE_UNKNOWN
  fingerprint : Option Fingerprint := none
deriving DecidableEq, Repr

/-! ## Deletion resolvers (`Sync::resolve_delSyncNode`,
`Sync::resolve_cloudNodeGone`) -/

/-- Outcome of `Sync::resolve_delSyncNode` (sync.cpp:2351-2363): whether the
row's `LocalNode` (modelled by an id) survives, whether it was destroyed, and
the returned row-synced flag. -/
structure ResolveDelOutcome where
  syncNode : Option Nat
  nodeDestroyed : Bool
  returnValue : Bool
deriving DecidableEq, Repr

/-- `Sync::resolve_delSyncNode` (sync.cpp:2351-2363): destroy the row's
`LocalNode` only when `mSyncFlags.scansAndMovesComplete` is set; always
report the row as not yet synced. -/
def resolve_delSyncNode (scansAndMovesComplete : Bool) (syncNode : Nat) :
    ResolveDelOutcome :=
  if scansAndMovesComplete then
    { syncNode := none, nodeDestroyed := true, returnValue := false }
  else
    { syncNode := some syncNode, nodeDestroyed := false, returnValue := false }

/-- Outcome of `Sync::resolve_cloudNodeGone` (sync.cpp:2468-2485): whether a
move of the local item into the local debris was attempted, plus the row's
`suppressRecursion`, the parent's future-scan request, and the return value. -/
structure ResolveCloudGoneOutcome where
  debrisMoveIssued : Bool
  suppressRecursion : Bool
  parentFutureScan : Bool
  returnValue : Bool
deriving DecidableEq, Repr

/-- `Sync::resolve_cloudNodeGone` (sync.cpp:2468-2485): only when
`scansAndMovesComplete` is set, attempt `movetolocaldebris(fullPath)`; on
success mark the row to suppress recursion and future-scan the parent.
Always return `false`. -/
def resolve_cloudNodeGone (scansAndMovesComplete moveSucceeds : Bool)
    (suppressRecursion0 parentFutureScan0 : Bool) : ResolveCloudGoneOutcome :=
  if scansAndMovesComplete then
    if moveSucceeds then
      { debrisMoveIssued := true, suppressRecursion := true,
        parentFutureScan := true, returnValue := false }
    else
      { debrisMoveIssued := true, suppressRecursion := suppressRecursion0,
        parentFutureScan := parentFutureScan0, returnValue := false }
  else
    { debrisMoveIssued := false, suppressRecursion := suppressRecursion0,
      parentFutureScan := parentFutureScan0, returnValue := false }

/-! ## Scan service (`ScanService::scan`, `ScanService::Worker`) -/

/-- Modelled from the spec: `LocalPath::isContainingPathOf` (filesystem
layer, not under `src/`) — whether the first path contains the second, i.e.
the second lies inside the first's subtree; modelled over component lists as
a prefix test. -/
def isContainingPathOf : List String → List String → Bool
  | [], _ => true
  | _ :: _, [] => false
  | a :: as, b :: bs => a == b && isContainingPathOf as bs

/-- The observable state of a `ScanRequest` as `ScanService::scan` returns
it: the `mComplete` flag and the (still empty) `mResults`. -/
structure ScanRequestState where
  mComplete : Bool
  mResults : List FSNode
deriving DecidableEq, Repr

/-- `ScanService::scan` (sync.cpp:71-94): build a request; it starts complete
exactly when the target lies in the debris, in which case it is not queued to
the worker.  Returns the request state and whether it was queued. -/
def scanServiceScan (debris targetPath : List String) :
    ScanRequestState × Bool :=
  let complete := isContainingPathOf debris targetPath
  (⟨complete, []⟩, !complete)

/-- One directory entry as the scan worker sees it: the leaf name, its full
path, the result of `fopen` on it, the stat fields, and the fingerprint that
`genfingerprint` would compute from its content. -/
structure ScanEntry where
  name : String
  path : List String
  opened : Bool
  fsidvalid : Bool
  fsid : Nat
  isSymlink : Bool
  mtime : Int
  size : Int
  shortname : Option String
  type : Nodetype
  retry : Bool
  freshFingerprint : Fingerprint
deriving DecidableEq, Repr

/-- First-match lookup in the request's `mKnown` map (keyed by localname). -/
def knownLookup : List (String × FSNode) → String → Option FSNode
  | [], _ => none
  | (k, v) :: rest, x => if x = k then some v else knownLookup rest x

/-- The `reuseFingerprint` predicate of `ScanService::Worker::interrogate`
(sync.cpp:254-261), translated verbatim: note that the last conjunct compares
`rhs.size` with itself, exactly as in the source. -/
def reuseFingerprint (lhs rhs : FSNode) : Bool :=
  decide (lhs.type = rhs.type) && decide (lhs.fsid = rhs.fsid) &&
    decide (lhs.mtime = rhs.mtime) && decide (rhs.size = rhs.size)

/-- `ScanService::Worker::interrogate` (sync.cpp:249-327): stat the entry; on
failure produce a blocked placeholder mirroring the transient flag; for
directories skip fingerprinting; for files reuse the known fingerprint when
`reuseFingerprint` passes, else recompute it. -/
def interrogate (known : List (String × FSNode)) (e : ScanEntry) : FSNode :=
  if e.opened then
    let base : FSNode :=
      { localname := e.name
        shortname := e.shortname
        type := e.type
        size := e.size
        mtime := e.mtime
        fsid := if e.fsidvalid then e.fsid else UNDEF
        isSymlink := e.isSymlink
        isBlocked := false
        fingerprint := none }
    if e.type = Nodetype.FOLDERNODE then base
    else
      match knownLookup known e.name with
      | some k =>
        if reuseFingerprint k base then { base with fingerprint := k.fingerprint }
        else { base with fingerprint := some e.freshFingerprint }
      | none => { base with fingerprint := some e.freshFingerprint }
  else
    { localname := e.name, isBlocked := e.retry }

/-- `ScanService::Worker::scan` (sync.cpp:329-396): produce no results for a
debris target or an unopenable/non-directory target; otherwise interrogate
every entry not inside the debris.  The three open/type/iterate failures are
folded into one flag, which the debris claim does not depend on. -/
def workerScan (debris targetPath : List String) (targetIsOpenableDir : Bool)
    (known : List (String × FSNode)) (entries : List ScanEntry) : List FSNode :=
  if isContainingPathOf debris targetPath then []
  else if targetIsOpenableDir = false then []
  else (entries.filter (fun e => !(isContainingPathOf debris e.path))).map
    (interrogate known)

/-- A known directory entry: a file of size 10, mtime 1000, fsid 7, with a
stored content fingerprint. -/
def knownFileEntry : FSNode :=
  { localname := "a.txt"
    type := Nodetype.FILENODE
    size := 10
    mtime := 1000
    fsid := 7
    fingerprint := some { size := 10, mtime := 1000, crc := 111 } }

/-- A fresh stat of the same entry whose size grew to 20 while type, fsid and
mtime stayed equal; its content would fingerprint differently. -/
def grownFileEntry : ScanEntry :=
  { name := "a.txt"
    path := ["root", "a.txt"]
    opened := true
    fsidvalid := true
    fsid := 7
    isSymlink := false
    mtime := 1000
    size := 20
    shortname := none
    type := Nodetype.FILENODE
    retry := false
    freshFingerprint := { size := 20, mtime := 1000, crc := 222 } }

/-! ## The file-is-changing guard (`MegaClient::checkIfFileIsChanging`,
sync.cpp:2559-2672) -/

/-- `FileChangingState`: the per-path entry of `mFileChangingCheckState`.
A missing map entry is value-initialised by `operator[]`, so all fields
default to zero. -/
structure FileChangingState where
  updatedfileinitialts : Int := 0
  updatedfilets : Int := 0
  updatedfilesize : Int := 0
deriving DecidableEq, Repr

/-- `Sync::FILE_UPDATE_DELAY_DS` (sync.cpp:38). -/
def FILE_UPDATE_DELAY_DS : Int := 30

/-- `Sync::FILE_UPDATE_MAX_DELAY_SECS` (sync.cpp:39). -/
def FILE_UPDATE_MAX_DELAY_SECS : Int := 60

/-- `MegaClient::checkIfFileIsChanging` (sync.cpp:2559-2672), translated
verbatim.  Inputs: the current map entry for the path (if any), the clock,
and the `fopen` result on the path (existence, size, mtime, transient flag).
Output: the returned `bool` and the map entry afterwards (`none` = erased).
The source's waiting branch executes `return NULL`, which converts to
`false`; the translation preserves that. -/
def checkIfFileIsChanging (st0 : Option FileChangingState) (currentsecs : Int)
    (fileExists : Bool) (fsize fmtime : Int) (retry : Bool) :
    Bool × Option FileChangingState :=
  let s1 := st0.getD {}
  let s2 : FileChangingState :=
    if s1.updatedfileinitialts = 0 then { s1 with updatedfileinitialts := currentsecs }
    else s1
  if currentsecs ≥ s2.updatedfileinitialts then
    if currentsecs - s2.updatedfileinitialts ≤ FILE_UPDATE_MAX_DELAY_SECS then
      if fileExists then
        let sizeCheck : Bool × FileChangingState :=
          if currentsecs ≥ s2.updatedfilets then
            if currentsecs - s2.updatedfilets < FILE_UPDATE_DELAY_DS / 10 then
              (true, s2)
            else if s2.updatedfilesize ≠ fsize then
              (true, { s2 with updatedfilesize := fsize, updatedfilets := currentsecs })
            else (false, s2)
          else (false, s2)
        let waitforupdate : Bool :=
          if sizeCheck.1 then true
          else if currentsecs ≥ fmtime then
            decide (currentsecs - fmtime < FILE_UPDATE_DELAY_DS / 10)
          else false
        if waitforupdate then (false, some sizeCheck.2)
        else (false, none)
      else if retry then (false, some s2)
      else (false, none)
    else (false, none)
  else (false, none)

/-- The gate in `Sync::checkLocalPathForMovesRenames` (sync.cpp:1141-1147):
the move is deferred exactly when the source is a file and the guard returned
true. -/
def moveDeferredForChangingFile (sourceIsFile guardResult : Bool) : Bool :=
  sourceIsFile && guardResult

/-- A guard map entry for a file first seen (and last size-checked) at time
100, with recorded size 5. -/
def recentCheckState : FileChangingState :=
  { updatedfileinitialts := 100, updatedfilets := 100, updatedfilesize := 5 }

/-! ## `Sync::syncEqual` and the all-present branch of `Sync::syncItem` -/

/-- `Sync::syncEqual(const Node&, const LocalNode&)` (sync.cpp:2694-2702):
equal types, and for files additionally an equal fingerprint. -/
def syncEqualCN (n : CloudNode) (ln : LocalNode) : Bool :=
  if n.type ≠ ln.type then false
  else if n.type ≠ Nodetype.FILENODE then true
  else decide (n.fingerprint = ln.fingerprint)

/-- `Sync::syncEqual(const FSNode&, const LocalNode&)` (sync.cpp:2704-2712):
equal types, and for files additionally an equal fingerprint. -/
def syncEqualFS (fsn : FSNode) (ln : LocalNode) : Bool :=
  if fsn.type ≠ ln.type then false
  else if fsn.type ≠ Nodetype.FILENODE then true
  else decide (fsn.fingerprint = ln.fingerprint)

/-- The routing chosen by the all-present branch of `syncItem`. -/
inductive SyncDecision
  | syncedSetIds
  | alreadySynced
  | upsync
  | downsync
  | userIntervention
deriving DecidableEq, Repr

/-- Outcome of the all-present branch: the routing, the (possibly updated)
`LocalNode`, whether `statecacheadd` was called, and the returned flag. -/
structure SyncItemOutcome where
  decision : SyncDecision
  syncNode : LocalNode
  queuedToStatecache : Bool
  rowSynced : Bool
deriving DecidableEq, Repr

/-- The `cloudNode && syncNode && fsNode` branch of `Sync::syncItem`
(sync.cpp:2168-2210), reached when no move/rename or blocked-state check took
the row: compare both sides with `syncEqual` and route the row.  In the
both-equal case, when either the `fsid` or the synced handle differed, they
are set from the `fsNode`/`cloudNode` and the node is queued for persistence
(`resolve_upsync`, `resolve_downsync` and `resolve_userIntervention` all
return `false` at this point, sync.cpp:2365-2466). -/
def syncItemAllPresent (c : CloudNode) (s : LocalNode) (f : FSNode) :
    SyncItemOutcome :=
  let cloudEqual := syncEqualCN c s
  let fsEqual := syncEqualFS f s
  if cloudEqual && fsEqual then
    if s.fsid ≠ f.fsid ∨ s.syncedCloudNodeHandle ≠ c.nodehandle then
      { decision := SyncDecision.syncedSetIds
        syncNode := { s with fsid := f.fsid, syncedCloudNodeHandle := c.nodehandle }
        queuedToStatecache := true
        rowSynced := true }
    else
      { decision := SyncDecision.alreadySynced
        syncNode := s
        queuedToStatecache := false
        rowSynced := true }
  else if cloudEqual then
    { decision := SyncDecision.upsync
      syncNode := s
      queuedToStatecache := false
      rowSynced := false }
  else if fsEqual then
    { decision := SyncDecision.downsync
      syncNode := s
      queuedToStatecache := false
      rowSynced := false }
  else
    { decision := SyncDecision.userIntervention
      syncNode := s
      queuedToStatecache := false
      rowSynced := false }

/-- A cloud file node equal (by fingerprint) to `sampleRowLocal`, but with a
handle the `LocalNode` has not recorded yet. -/
def sampleRowCloud : CloudNode :=
  { name := "a.txt", nodehandle := 77, type := Nodetype.FILENODE
    fingerprint := some { size := 10, mtime := 1000, crc := 111 } }

/-- A synced-state file node whose `fsid` and handle are still `UNDEF`. -/
def sampleRowLocal : LocalNode :=
  { name := "a.txt", localname := "a.txt", type := Nodetype.FILENODE
    fingerprint := some { size := 10, mtime := 1000, crc := 111 } }

/-- A filesystem file node equal (by fingerprint) to `sampleRowLocal`. -/
def sampleRowFs : FSNode :=
  { localname := "a.txt", type := Nodetype.FILENODE, size := 10, mtime := 1000
    fsid := 7, fingerprint := some { size := 10, mtime := 1000, crc := 111 } }

/-! ## The triplet builder (`Sync::computeSyncTriplets`, sync.cpp:1541-1799)

The merge-join works on sorted copies of its inputs.  `std::sort` is modelled
by a stable insertion sort (`std::sort` leaves the order of equivalent
elements unspecified; the model fixes one admissible order).  The
`upper_bound` tie-run extraction on a sorted range is modelled by
`splitRun`. -/

/-- One row of the join: up to three aligned views of one name, plus the
name-clash lists (`syncRow` in sync.h). -/
structure SyncRow where
  cloudNode : Option CloudNode := none
  syncNode : Option LocalNode := none
  fsNode : Option FSNode := none
  cloudClashingNames : List CloudNode := []
  fsClashingNames : List FSNode := []
deriving DecidableEq, Repr

/-- Case-folding used to model filesystem-dependent (case-insensitive) name
comparison. -/
def lowerName (s : String) : String := String.mk (s.data.map Char.toLower)

/-- The name as the filesystem comparator sees it: unchanged on a
case-sensitive volume, case-folded otherwise. -/
def normName (ci : Bool) (s : String) : String := if ci then lowerName s else s

/-- `LocalPath::fsCompare`: filesystem-dependent name comparison, `ci = true`
meaning a case-insensitive volume. -/
def fsCompare (ci : Bool) (a b : String) : Ordering :=
  compare (normName ci a) (normName ci b)

/-- Strict comparison of two elements through a string key. -/
def ltByKey (key : α → String) (a b : α) : Bool :=
  decide (compare (key a) (key b) = Ordering.lt)

/-- `Comparator::operator()(FSNode, FSNode)` (sync.cpp:1567-1571): cloud
name, case sensitive. -/
def fsLt : FSNode → FSNode → Bool := ltByKey FSNode.localname

/-- `Comparator::operator()(LocalNode*, LocalNode*)` (sync.cpp:1573-1579):
cloud name, case sensitive. -/
def locLt : LocalNode → LocalNode → Bool := ltByKey LocalNode.name

/-- `Comparator::operator()(Node*, Node*)` (sync.cpp:1581-1589): local name,
filesystem-dependent sensitivity. -/
def cloudLt (ci : Bool) : CloudNode → CloudNode → Bool :=
  ltByKey (fun n => normName ci n.name)

/-- `Comparator::name(syncRow)` (sync.cpp:1598-1608): the row's local name —
the `syncNode`'s `localname` when present, else the `fsNode`'s.  The source
asserts one of the two is present; the impossible case yields `""`. -/
def rowName (r : SyncRow) : String :=
  match r.syncNode with
  | some sn => sn.localname
  | none =>
    match r.fsNode with
    | some f => f.localname
    | none => ""

/-- `Comparator::operator()(syncRow, syncRow)` (sync.cpp:1591-1595): local
name, filesystem-dependent sensitivity. -/
def rowLt (ci : Bool) : SyncRow → SyncRow → Bool :=
  ltByKey (fun r => normName ci (rowName r))

/-- `Comparator::compare(FSNode, LocalNode)` (sync.cpp:1553-1557): cloud
name, case sensitive. -/
def compareFsLocal (f : FSNode) (l : LocalNode) : Ordering :=
  compare f.localname l.name

/-- Stable insertion of `x` into a run-sorted list: `x` lands after every
element it is not strictly below. -/
def insertByLt (lt : α → α → Bool) (x : α) : List α → List α
  | [] => [x]
  | y :: ys => if lt x y then x :: y :: ys else y :: insertByLt lt x ys

/-- Stable insertion sort, modelling the `std::sort` calls. -/
def sortByLt (lt : α → α → Bool) (xs : List α) : List α :=
  xs.foldl (fun acc x => insertByLt lt x acc) []

/-- Split a list into its leading run of elements satisfying `p` and the
rest (the `upper_bound` step of the merge-join on a sorted range). -/
def splitRun (p : α → Bool) : List α → List α × List α
  | [] => ([], [])
  | x :: xs =>
    if p x then
      let r := splitRun p xs
      (x :: r.1, r.2)
    else ([], x :: xs)

/-- The fs-side clash test (sync.cpp:1695): the entry's `fsid` is defined and
equals the row's `localNode->fsid`.  A null `localNode` is undefined
behaviour in the source; the model makes the test fail. -/
def fsidMatchesB (lopt : Option LocalNode) (i : FSNode) : Bool :=
  match lopt with
  | some l => decide (i.fsid ≠ UNDEF) && decide (i.fsid = l.fsid)
  | none => false

/-- The last clashing entry whose `fsid` matches, mirroring the loop of
sync.cpp:1688-1702 (later matches overwrite earlier ones). -/
def lastFsidMatch (run : List FSNode) (lopt : Option LocalNode) : Option FSNode :=
  run.foldl (fun acc i => if fsidMatchesB lopt i then some i else acc) none

/-- Build the row for one filesystem tie-run paired with an optional local
node (sync.cpp:1680-1703): a run longer than one becomes a clash — the run is
recorded in `fsClashingNames` and `fsNode` is re-set only to a matching
entry. -/
def mkFsRow (run : List FSNode) (lopt : Option LocalNode) : SyncRow :=
  if 1 < run.length then
    { syncNode := lopt, fsNode := lastFsidMatch run lopt, fsClashingNames := run }
  else
    { syncNode := lopt, fsNode := run.head? }

/-- The filesystem/local pairing sweep of `computeSyncTriplets`
(sync.cpp:1638-1708), on the sorted inputs, as structural recursion on a fuel
bound (`computeSyncTriplets` passes one more than the total length, which
always suffices because every step consumes at least one element). -/
def pairFsLocalF : Nat → List FSNode → List LocalNode → List SyncRow
  | 0, _, _ => []
  | _ + 1, [], [] => []
  | fuel + 1, f :: ftl, [] =>
    let pf := splitRun (fun g => !(fsLt f g)) ftl
    mkFsRow (f :: pf.1) none :: pairFsLocalF fuel pf.2 []
  | fuel + 1, [], l :: ltl =>
    let pl := splitRun (fun m => !(locLt l m)) ltl
    { syncNode := some l } :: pairFsLocalF fuel [] pl.2
  | fuel + 1, f :: ftl, l :: ltl =>
    let pf := splitRun (fun g => !(fsLt f g)) ftl
    let pl := splitRun (fun m => !(locLt l m)) ltl
    match compareFsLocal f l with
    | Ordering.lt => mkFsRow (f :: pf.1) none :: pairFsLocalF fuel pf.2 (l :: ltl)
    | Ordering.gt => { syncNode := some l } :: pairFsLocalF fuel (f :: ftl) pl.2
    | Ordering.eq => mkFsRow (f :: pf.1) (some l) :: pairFsLocalF fuel pf.2 pl.2

/-- The filesystem/local pairing on sorted inputs. -/
def pairFsLocal (fs : List FSNode) (loc : List LocalNode) : List SyncRow :=
  pairFsLocalF (fs.length + loc.length + 1) fs loc

/-- The cloud-side clash test (sync.cpp:1773-1774): the entry's handle is
defined and equals the row's `syncNode->syncedCloudNodeHandle`.  A null
`syncNode` is undefined behaviour in the source; the model makes the test
fail. -/
def handleMatchesB (sopt : Option LocalNode) (i : CloudNode) : Bool :=
  match sopt with
  | some sn => decide (i.nodehandle ≠ UNDEF) && decide (sn.syncedCloudNodeHandle = i.nodehandle)
  | none => false

/-- The last clashing entry whose handle matches, starting from the row's
current `cloudNode` (sync.cpp:1764-1782). -/
def lastHandleMatch (run : List CloudNode) (t : SyncRow) : Option CloudNode :=
  run.foldl (fun acc i => if handleMatchesB t.syncNode i then some i else acc) t.cloudNode

/-- The cloud/row linking sweep of `computeSyncTriplets`
(sync.cpp:1713-1796), returning the updated rows and the rows appended for
unmatched cloud nodes.  A cloud tie-run longer than one with no matching row
is dropped entirely (the loop at sync.cpp:1762-1783 only records entries
`if (triplet)`). -/
def linkCloudF (ci : Bool) : Nat → List CloudNode → List SyncRow →
    List SyncRow × List SyncRow
  | 0, _, rows => (rows, [])
  | _ + 1, [], [] => ([], [])
  | fuel + 1, [], t :: ttl =>
    let pt := splitRun (fun u => !(rowLt ci t u)) ttl
    let rest := linkCloudF ci fuel [] pt.2
    (t :: pt.1 ++ rest.1, rest.2)
  | fuel + 1, r :: rtl, [] =>
    let pr := splitRun (fun u => !(cloudLt ci r u)) rtl
    let rest := linkCloudF ci fuel pr.2 []
    if 1 < (r :: pr.1).length then (rest.1, rest.2)
    else (rest.1, { cloudNode := some r } :: rest.2)
  | fuel + 1, r :: rtl, t :: ttl =>
    let pr := splitRun (fun u => !(cloudLt ci r u)) rtl
    let pt := splitRun (fun u => !(rowLt ci t u)) ttl
    match fsCompare ci r.name (rowName t) with
    | Ordering.lt =>
      let rest := linkCloudF ci fuel pr.2 (t :: ttl)
      if 1 < (r :: pr.1).length then (rest.1, rest.2)
      else (rest.1, { cloudNode := some r } :: rest.2)
    | Ordering.gt =>
      let rest := linkCloudF ci fuel (r :: rtl) pt.2
      (t :: pt.1 ++ rest.1, rest.2)
    | Ordering.eq =>
      let rest := linkCloudF ci fuel pr.2 pt.2
      if 1 < (r :: pr.1).length then
        ({ t with
            cloudClashingNames := t.cloudClashingNames ++ (r :: pr.1)
            cloudNode := lastHandleMatch (r :: pr.1) t } :: pt.1 ++ rest.1, rest.2)
      else
        ({ t with cloudNode := some r } :: pt.1 ++ rest.1, rest.2)

/-- `Sync::computeSyncTriplets` (sync.cpp:1541-1799): sort the filesystem
nodes and local nodes by cloud name, pair them into rows, then sort the
remote nodes and the rows by local name (filesystem-dependent) and link the
cloud side in, appending rows for unmatched cloud nodes. -/
def computeSyncTriplets (ci : Bool) (cloud : List CloudNode)
    (loc : List LocalNode) (fs : List FSNode) : List SyncRow :=
  let fsS := sortByLt fsLt fs
  let locS := sortByLt locLt loc
  let rows := pairFsLocal fsS locS
  let remS := sortByLt (cloudLt ci) cloud
  let rowsS := sortByLt (rowLt ci) rows
  let lr := linkCloudF ci (remS.length + rowsS.length + 1) remS rowsS
  lr.1 ++ lr.2

/-- The filesystem inputs accounted to a row: its clash list when there was a
clash, else its primary `fsNode` (a clash row's `fsNode` is one of its
clashing entries, so the row accounts each input once). -/
def rowFsElems (r : SyncRow) : List FSNode :=
  if r.fsClashingNames.isEmpty then r.fsNode.toList else r.fsClashingNames

/-- The local input accounted to a row. -/
def rowLocElems (r : SyncRow) : List LocalNode :=
  r.syncNode.toList

/-- The cloud inputs accounted to a row. -/
def rowCloudElems (r : SyncRow) : List CloudNode :=
  if r.cloudClashingNames.isEmpty then r.cloudNode.toList else r.cloudClashingNames

/-- The row fields the cloud-linking sweep never modifies. -/
def stripCloud (r : SyncRow) : Option LocalNode × Option FSNode × List FSNode :=
  (r.syncNode, r.fsNode, r.fsClashingNames)

/-- A row not yet carrying any cloud data (every row built by the
filesystem/local pairing). -/
def CloudFree (r : SyncRow) : Prop :=
  r.cloudNode = none ∧ r.cloudClashingNames = []

instance (r : SyncRow) : Decidable (CloudFree r) := by
  unfold CloudFree; infer_instance

/-- The row name read off the fields the cloud sweep never touches. -/
def rowNameS (p : Option LocalNode × Option FSNode × List FSNode) : String :=
  match p.1 with
  | some sn => sn.localname
  | none =>
    match p.2.1 with
    | some f => f.localname
    | none => ""

/-- Modelled from the spec: the name a row stands for, reading the cloud node
when neither a `syncNode` nor an `fsNode` is present (the source comparator
asserts one of the two and cannot rank the appended cloud-only rows). -/
def rowNameSpec (r : SyncRow) : String :=
  match r.syncNode with
  | some sn => sn.localname
  | none =>
    match r.fsNode with
    | some f => f.localname
    | none =>
      match r.cloudNode with
      | some c => c.name
      | none => ""

/-- Modelled from the spec: the row order the claim asserts, over every row
including the cloud-only ones. -/
def rowLtSpec (ci : Bool) : SyncRow → SyncRow → Bool :=
  ltByKey (fun r => normName ci (rowNameSpec r))

def c4fsA : FSNode := { localname := "a" }

def c4locB : LocalNode := { name := "b", localname := "b" }

def c4cloudC : CloudNode := { name := "c", nodehandle := 3 }

def c4dupA : LocalNode := { name := "n", localname := "n" }

def c4dupB : LocalNode := { name := "n", localname := "m" }

def c4cloudA : CloudNode := { name := "a", nodehandle := 1 }

def c4cx1 : CloudNode := { name := "x", nodehandle := 1 }

def c4cx2 : CloudNode := { name := "x", nodehandle := 2 }

def c4locREADME : LocalNode := { name := "README", localname := "README" }

def c4locreadme : LocalNode := { name := "readme", localname := "readme" }

def c5loc : LocalNode :=
  { name := "x", localname := "x", fsid := 7, syncedCloudNodeHandle := 5 }

def c5f1 : FSNode := { localname := "x", fsid := 7, mtime := 1 }

def c5f2 : FSNode := { localname := "x", fsid := 7, mtime := 2 }

def c5wf1 : FSNode := { localname := "x", fsid := 7 }

def c5wf2 : FSNode := { localname := "x", fsid := 9 }

def c5wc1 : CloudNode := { name := "x", nodehandle := 5 }

def c5wc2 : CloudNode := { name := "x", nodehandle := 9 }

theorem insertSet_nodup {x : Nat} {xs : List Nat} (h : xs.Nodup) :
    (insertSet x xs).Nodup := by
  unfold insertSet
  split
  · exact h
  · next hx =>
    rw [List.nodup_append]
    refine ⟨h, List.nodup_singleton x, ?_⟩
    intro a ha hax
    rw [List.mem_singleton] at hax
    exact hx (hax ▸ ha)

theorem mem_insertSet {x y : Nat} {xs : List Nat} :
    y ∈ insertSet x xs ↔ y ∈ xs ∨ y = x := by
  unfold insertSet
  split
  · next hx =>
    constructor
    · exact Or.inl
    · rintro (h | rfl) <;> assumption
  · simp

theorem statecachedel_state (st : SyncDB) (l : Nat) :
    (statecachedel st l).dbid = st.dbid ∧ (statecachedel st l).state = st.state := by
  unfold statecachedel
  split
  · exact ⟨rfl, rfl⟩
  · dsimp only
    split <;> exact ⟨rfl, rfl⟩

theorem statecacheadd_state (st : SyncDB) (l : Nat) :
    (statecacheadd st l).dbid = st.dbid ∧ (statecacheadd st l).state = st.state := by
  unfold statecacheadd
  split
  · exact ⟨rfl, rfl⟩
  · dsimp only
    split <;> exact ⟨rfl, rfl⟩

theorem dbidOf_statecachedel (st : SyncDB) (l n : Nat) :
    (statecachedel st l).dbidOf n = st.dbidOf n := by
  unfold SyncDB.dbidOf
  rw [(statecachedel_state st l).1]

theorem dbidOf_statecacheadd (st : SyncDB) (l n : Nat) :
    (statecacheadd st l).dbidOf n = st.dbidOf n := by
  unfold SyncDB.dbidOf
  rw [(statecacheadd_state st l).1]

theorem insertq_statecachedel (st : SyncDB) (l : Nat) :
    (statecachedel st l).insertq = st.insertq ∨
    (statecachedel st l).insertq = st.insertq.erase l := by
  unfold statecachedel
  split
  · exact Or.inl rfl
  · dsimp only
    split <;> exact Or.inr rfl

theorem insertq_statecacheadd (st : SyncDB) (l : Nat) :
    (statecacheadd st l).insertq = st.insertq ∨
    (statecacheadd st l).insertq = insertSet l st.insertq := by
  unfold statecacheadd
  split
  · exact Or.inl rfl
  · dsimp only
    split <;> exact Or.inr rfl

theorem cacheInv_statecachedel (st : SyncDB) (l : Nat)
    (hinj : ∀ b ∈ st.insertq, st.dbidOf l ≠ 0 → st.dbidOf l = st.dbidOf b → l = b)
    (hinv : CacheInv st) : CacheInv (statecachedel st l) := by
  obtain ⟨hni, hnd, hdisj⟩ := hinv
  unfold statecachedel
  split
  · exact ⟨hni, hnd, hdisj⟩
  · dsimp only
    split
    · next hdb =>
      refine ⟨hni.erase l, insertSet_nodup hnd, ?_⟩
      intro n hn hdbn
      simp only [SyncDB.dbidOf] at *
      have hn' : n ≠ l ∧ n ∈ st.insertq := (List.Nodup.mem_erase_iff hni).mp hn
      rw [mem_insertSet]
      rintro (hmem | heq)
      · exact hdisj n hn'.2 hdbn hmem
      · exact hn'.1 (hinj n hn'.2 hdb heq.symm).symm
    · refine ⟨hni.erase l, hnd, ?_⟩
      intro n hn hdbn
      exact hdisj n (List.mem_of_mem_erase hn) hdbn

theorem cacheInv_statecacheadd (st : SyncDB) (l : Nat)
    (hinv : CacheInv st) : CacheInv (statecacheadd st l) := by
  obtain ⟨hni, hnd, hdisj⟩ := hinv
  unfold statecacheadd
  split
  · exact ⟨hni, hnd, hdisj⟩
  · dsimp only
    split
    · next hdb =>
      refine ⟨insertSet_nodup hni, hnd.erase _, ?_⟩
      intro n hn hdbn
      simp only [SyncDB.dbidOf] at *
      rw [mem_insertSet] at hn
      rcases hn with hn | rfl
      · intro hmem
        exact hdisj n hn hdbn (List.mem_of_mem_erase hmem)
      · intro hmem
        exact ((List.Nodup.mem_erase_iff hnd).mp hmem).1 rfl
    · next hdb =>
      push_neg at hdb
      refine ⟨insertSet_nodup hni, hnd, ?_⟩
      intro n hn hdbn
      rw [mem_insertSet] at hn
      rcases hn with hn | rfl
      · exact hdisj n hn hdbn
      · exact absurd hdb hdbn

theorem cacheInv_applyCacheOps (ops : List CacheOp) (st : SyncDB) (S : List Nat)
    (hS1 : ∀ n ∈ st.insertq, n ∈ S)
    (hS2 : ∀ op ∈ ops, op.nodeId ∈ S)
    (hinj : DbidInjOn st S)
    (hinv : CacheInv st) : CacheInv (applyCacheOps st ops) := by
  induction ops generalizing st with
  | nil => exact hinv
  | cons op rest ih =>
    have hopS : op.nodeId ∈ S := hS2 op (List.mem_cons_self op rest)
    have hS2' : ∀ o ∈ rest, o.nodeId ∈ S :=
      fun o ho => hS2 o (List.mem_cons_of_mem op ho)
    show CacheInv (applyCacheOps (applyCacheOp st op) rest)
    cases op with
    | add l =>
      refine ih (statecacheadd st l) ?_ hS2' ?_ (cacheInv_statecacheadd st l hinv)
      · intro n hn
        rcases insertq_statecacheadd st l with h | h <;> rw [h] at hn
        · exact hS1 n hn
        · rw [mem_insertSet] at hn
          rcases hn with hn | rfl
          · exact hS1 n hn
          · exact hopS
      · intro a ha b hb
        rw [dbidOf_statecacheadd, dbidOf_statecacheadd]
        exact hinj a ha b hb
    | del l =>
      refine ih (statecachedel st l) ?_ hS2' ?_
        (cacheInv_statecachedel st l
          (fun b hb => hinj l hopS b (hS1 b hb)) hinv)
      · intro n hn
        rcases insertq_statecachedel st l with h | h <;> rw [h] at hn
        · exact hS1 n hn
        · exact hS1 n (List.mem_of_mem_erase hn)
      · intro a ha b hb
        rw [dbidOf_statecachedel, dbidOf_statecachedel]
        exact hinj a ha b hb

/-- C10: after any sequence of `statecacheadd`/`statecachedel` calls, no
`LocalNode` is simultaneously pending insertion and pending deletion: provided
distinct nodes (drawn from the id universe `S` covering the initial queue and
every call) have distinct nonzero `dbid`s, and the queues start well-formed
and disjoint, the insertion queue and the deletion queue never refer to the
same database row. -/
theorem statecache_queues_never_share_row (st : SyncDB) (ops : List CacheOp)
    (S : List Nat)
    (hS1 : ∀ n ∈ st.insertq, n ∈ S)
    (hS2 : ∀ op ∈ ops, op.nodeId ∈ S)
    (hinj : DbidInjOn st S)
    (hinv : CacheInv st) :
    QueuesDisjoint (applyCacheOps st ops) :=
  (cacheInv_applyCacheOps ops st S hS1 hS2 hinj hinv).2.2

/-- Witness for C10: a concrete interleaving of adds and deletes on two nodes
leaves the queues referring to disjoint DB rows. -/
theorem statecache_queues_never_share_row_witness :
    QueuesDisjoint (applyCacheOps sampleActiveSync
      [CacheOp.add 1, CacheOp.del 1, CacheOp.add 2, CacheOp.del 2, CacheOp.add 1]) :=
  statecache_queues_never_share_row sampleActiveSync
    [CacheOp.add 1, CacheOp.del 1, CacheOp.add 2, CacheOp.del 2, CacheOp.add 1]
    [1, 2]
    (by decide) (by decide) (by decide) (by decide)

/-- C7 counterexample: in the terminal states `SYNC_FAILED` and
`SYNC_DISABLED`, `statecachedel` and `statecacheadd` are not no-ops — each
call changes the pending queues (only `SYNC_CANCELED` short-circuits). -/
theorem statecache_not_noop_in_failed_or_disabled :
    (statecachedel sampleFailedSync 1 ≠ sampleFailedSync ∧
     statecacheadd sampleFailedSync 1 ≠ sampleFailedSync) ∧
    (statecachedel sampleDisabledSync 1 ≠ sampleDisabledSync ∧
     statecacheadd sampleDisabledSync 1 ≠ sampleDisabledSync) := by
  decide

/-- C7 (amended): only in state `SYNC_CANCELED` are `statecachedel` and
`statecacheadd` no-ops, leaving the entire `Sync` state (both pending queues
included) unchanged. -/
theorem statecache_noop_when_canceled (st : SyncDB) (l : Nat)
    (h : st.state = Syncstate.SYNC_CANCELED) :
    statecachedel st l = st ∧ statecacheadd st l = st := by
  unfold statecachedel statecacheadd
  rw [if_pos h, if_pos h]
  exact ⟨rfl, rfl⟩

/-- Witness for the amended C7 at a concrete canceled sync. -/
theorem statecache_noop_when_canceled_witness :
    statecachedel sampleCanceledSync 1 = sampleCanceledSync ∧
    statecacheadd sampleCanceledSync 1 = sampleCanceledSync :=
  statecache_noop_when_canceled sampleCanceledSync 1 (by decide)

theorem putNode_fields (st : SyncDB) (l : Nat) :
    (putNode st l).state = st.state ∧
    (putNode st l).hasStatecacheTable = st.hasStatecacheTable ∧
    (putNode st l).insertq = st.insertq ∧
    (putNode st l).deleteq = st.deleteq ∧
    (putNode st l).parentOf = st.parentOf ∧
    (putNode st l).typeOf = st.typeOf ∧
    (putNode st l).cachingFailure = st.cachingFailure := by
  unfold putNode
  split <;> exact ⟨rfl, rfl, rfl, rfl, rfl, rfl, rfl⟩

theorem putNode_tableOps (st : SyncDB) (l : Nat) :
    (putNode st l).tableOps = st.tableOps ++ [TableOp.putRec l] := by
  unfold putNode
  split <;> rfl

theorem applyPuts_append (st : SyncDB) (a b : List Nat) :
    applyPuts st (a ++ b) = applyPuts (applyPuts st a) b := by
  unfold applyPuts
  rw [List.foldl_append]

theorem putNode_cacheAux (st : SyncDB) (l : Nat) :
    cacheAux (putNode st l) = cacheAux st := by
  unfold putNode cacheAux
  split <;> rfl

theorem applyPuts_cacheAux (ids : List Nat) (st : SyncDB) :
    cacheAux (applyPuts st ids) = cacheAux st := by
  induction ids generalizing st with
  | nil => rfl
  | cons l rest ih =>
    exact (ih (putNode st l)).trans (putNode_cacheAux st l)

theorem applyPuts_typeOf (ids : List Nat) (st : SyncDB) :
    (applyPuts st ids).typeOf = st.typeOf :=
  congrArg (fun p => p.2.2.2.2.2.1) (applyPuts_cacheAux ids st)

theorem applyPuts_nodeTypeOf (ids : List Nat) (st : SyncDB) (l : Nat) :
    (applyPuts st ids).nodeTypeOf l = st.nodeTypeOf l := by
  unfold SyncDB.nodeTypeOf
  rw [applyPuts_typeOf]

theorem putNode_nodeTypeOf (st : SyncDB) (l x : Nat) :
    (putNode st l).nodeTypeOf x = st.nodeTypeOf x := by
  unfold SyncDB.nodeTypeOf
  rw [(putNode_fields st l).2.2.2.2.2.1]

theorem sweepOnce_spec (q : List Nat) (st : SyncDB) :
    (sweepOnce st q).st = applyPuts st (sweepOnce st q).puts ∧
    ((sweepOnce st q).added = false → (sweepOnce st q).puts = []) ∧
    ((sweepOnce st q).added = false →
      ∀ l ∈ (sweepOnce st q).kept,
        st.nodeTypeOf l ≠ Nodetype.TYPE_UNKNOWN ∧ parentOkB st l = false) ∧
    (∀ x ∈ (sweepOnce st q).kept, x ∈ q) ∧
    (∀ x ∈ (sweepOnce st q).puts, x ∈ q) ∧
    (∀ x ∈ q, x ∈ (sweepOnce st q).kept ∨ x ∈ (sweepOnce st q).puts ∨
      st.nodeTypeOf x = Nodetype.TYPE_UNKNOWN) ∧
    PutsRespectParents st (sweepOnce st q).puts ∧
    (sweepOnce st q).kept.length ≤ q.length ∧
    ((sweepOnce st q).added = true → (sweepOnce st q).kept.length < q.length) := by
  induction q generalizing st with
  | nil =>
    refine ⟨rfl, fun _ => rfl, ?_, ?_, ?_, ?_, trivial, Nat.le_refl 0, ?_⟩
    · intro _ l hl; exact absurd hl (List.not_mem_nil l)
    · intro x hx; exact absurd hx (List.not_mem_nil x)
    · intro x hx; exact absurd hx (List.not_mem_nil x)
    · intro x hx; exact absurd hx (List.not_mem_nil x)
    · intro h; exact absurd h Bool.false_ne_true
  | cons l rest ih =>
    by_cases h1 : st.nodeTypeOf l = Nodetype.TYPE_UNKNOWN
    · have hs : sweepOnce st (l :: rest) = sweepOnce st rest := by
        simp only [sweepOnce, if_pos h1]
      rw [hs]
      obtain ⟨i1, i2, i3, i4, i5, i6, i7, i8, i9⟩ := ih st
      refine ⟨i1, i2, i3, ?_, ?_, ?_, i7, Nat.le_succ_of_le i8, ?_⟩
      · exact fun x hx => List.mem_cons_of_mem l (i4 x hx)
      · exact fun x hx => List.mem_cons_of_mem l (i5 x hx)
      · intro x hx
        rcases List.mem_cons.mp hx with rfl | hx'
        · exact Or.inr (Or.inr h1)
        · exact i6 x hx'
      · intro ha; exact Nat.lt_succ_of_lt (i9 ha)
    · by_cases h2 : parentOkB st l = true
      · have hs : sweepOnce st (l :: rest) =
            ⟨(sweepOnce (putNode st l) rest).st,
            (sweepOnce (putNode st l) rest).kept,
            l :: (sweepOnce (putNode st l) rest).puts, true⟩ := by
          simp only [sweepOnce, if_neg h1, if_pos h2]
        rw [hs]
        obtain ⟨i1, i2, i3, i4, i5, i6, i7, i8, i9⟩ := ih (putNode st l)
        dsimp only
        refine ⟨?_, ?_, ?_, ?_, ?_, ?_, ⟨h2, i7⟩, Nat.le_succ_of_le i8, ?_⟩
        · rw [i1]; rfl
        · intro hfalse; exact absurd hfalse.symm Bool.false_ne_true
        · intro hfalse; exact absurd hfalse.symm Bool.false_ne_true
        · exact fun x hx => List.mem_cons_of_mem l (i4 x hx)
        · intro x hx
          rcases List.mem_cons.mp hx with rfl | hx'
          · exact List.mem_cons_self _ _
          · exact List.mem_cons_of_mem l (i5 x hx')
        · intro x hx
          rcases List.mem_cons.mp hx with rfl | hx'
          · exact Or.inr (Or.inl (List.mem_cons_self _ _))
          · rcases i6 x hx' with hk | hp | hu
            · exact Or.inl hk
            · exact Or.inr (Or.inl (List.mem_cons_of_mem l hp))
            · rw [putNode_nodeTypeOf] at hu
              exact Or.inr (Or.inr hu)
        · intro _; exact Nat.lt_succ_of_le i8
      · have h2' : parentOkB st l = false := by
          cases hb : parentOkB st l
          · rfl
          · exact absurd hb h2
        have hs : sweepOnce st (l :: rest) =
            ⟨(sweepOnce st rest).st, l :: (sweepOnce st rest).kept,
            (sweepOnce st rest).puts, (sweepOnce st rest).added⟩ := by
          simp only [sweepOnce, if_neg h1, if_neg h2]
        rw [hs]
        obtain ⟨i1, i2, i3, i4, i5, i6, i7, i8, i9⟩ := ih st
        dsimp only
        refine ⟨i1, i2, ?_, ?_, ?_, ?_, i7, Nat.succ_le_succ i8, ?_⟩
        · intro ha x hx
          rcases List.mem_cons.mp hx with rfl | hx'
          · exact ⟨h1, h2'⟩
          · exact i3 ha x hx'
        · intro x hx
          rcases List.mem_cons.mp hx with rfl | hx'
          · exact List.mem_cons_self _ _
          · exact List.mem_cons_of_mem l (i4 x hx')
        · exact fun x hx => List.mem_cons_of_mem l (i5 x hx)
        · intro x hx
          rcases List.mem_cons.mp hx with rfl | hx'
          · exact Or.inl (List.mem_cons_self _ _)
          · rcases i6 x hx' with hk | hp | hu
            · exact Or.inl (List.mem_cons_of_mem l hk)
            · exact Or.inr (Or.inl hp)
            · exact Or.inr (Or.inr hu)
        · intro ha; exact Nat.succ_lt_succ (i9 ha)

theorem prp_append (a : List Nat) (st : SyncDB) (b : List Nat)
    (ha : PutsRespectParents st a) (hb : PutsRespectParents (applyPuts st a) b) :
    PutsRespectParents st (a ++ b) := by
  induction a generalizing st with
  | nil => exact hb
  | cons l rest ih =>
    obtain ⟨h1, h2⟩ := ha
    exact ⟨h1, ih (putNode st l) h2 hb⟩

theorem drainFuel_spec (fuel : Nat) (st : SyncDB) (q : List Nat) :
    (drainFuel fuel st q).1 = applyPuts st (drainFuel fuel st q).2.2 ∧
    PutsRespectParents st (drainFuel fuel st q).2.2 ∧
    (∀ x ∈ (drainFuel fuel st q).2.1, x ∈ q) ∧
    (∀ x ∈ (drainFuel fuel st q).2.2, x ∈ q) ∧
    (∀ x ∈ q, x ∈ (drainFuel fuel st q).2.1 ∨ x ∈ (drainFuel fuel st q).2.2 ∨
      st.nodeTypeOf x = Nodetype.TYPE_UNKNOWN) ∧
    (q.length < fuel →
      ∀ l ∈ (drainFuel fuel st q).2.1,
        (drainFuel fuel st q).1.nodeTypeOf l ≠ Nodetype.TYPE_UNKNOWN ∧
        parentOkB (drainFuel fuel st q).1 l = false) := by
  induction fuel generalizing st q with
  | zero =>
    refine ⟨rfl, trivial, fun x hx => hx, ?_, fun x hx => Or.inl hx, ?_⟩
    · intro x hx; exact absurd hx (List.not_mem_nil x)
    · intro h; exact absurd h (Nat.not_lt_zero _)
  | succ fuel ih =>
    obtain ⟨s1, s2, s3, s4, s5, s6, s7, s8, s9⟩ := sweepOnce_spec q st
    by_cases hadd : (sweepOnce st q).added = true
    · have hs : drainFuel (fuel + 1) st q =
          ((drainFuel fuel (sweepOnce st q).st (sweepOnce st q).kept).1,
          (drainFuel fuel (sweepOnce st q).st (sweepOnce st q).kept).2.1,
          (sweepOnce st q).puts ++
            (drainFuel fuel (sweepOnce st q).st (sweepOnce st q).kept).2.2) := by
        simp only [drainFuel, if_pos hadd]
      rw [hs]
      obtain ⟨d1, d2, d3, d4, d5, d6⟩ :=
        ih (sweepOnce st q).st (sweepOnce st q).kept
      dsimp only
      refine ⟨?_, ?_, ?_, ?_, ?_, ?_⟩
      · rw [d1, s1, ← applyPuts_append]
      · refine prp_append _ st _ s7 ?_
        rw [← s1]
        exact d2
      · exact fun x hx => s4 x (d3 x hx)
      · intro x hx
        rcases List.mem_append.mp hx with hx' | hx'
        · exact s5 x hx'
        · exact s4 x (d4 x hx')
      · intro x hx
        rcases s6 x hx with hk | hp | hu
        · rcases d5 x hk with h | h | h
          · exact Or.inl h
          · exact Or.inr (Or.inl (List.mem_append.mpr (Or.inr h)))
          · rw [s1, applyPuts_nodeTypeOf] at h
            exact Or.inr (Or.inr h)
        · exact Or.inr (Or.inl (List.mem_append.mpr (Or.inl hp)))
        · exact Or.inr (Or.inr hu)
      · intro hlen
        exact d6 (Nat.lt_of_lt_of_le (s9 hadd) (Nat.le_of_lt_succ hlen))
    · have hadd' : (sweepOnce st q).added = false := by
        cases hb : (sweepOnce st q).added
        · rfl
        · exact absurd hb hadd
      have hs : drainFuel (fuel + 1) st q =
          ((sweepOnce st q).st, (sweepOnce st q).kept, (sweepOnce st q).puts) := by
        simp only [drainFuel, if_neg hadd]
      rw [hs]
      have hputs : (sweepOnce st q).puts = [] := s2 hadd'
      have hst : (sweepOnce st q).st = st := by rw [s1, hputs]; rfl
      refine ⟨s1, s7, s4, s5, s6, ?_⟩
      · intro _ l hl
        rw [hst]
        exact s3 hadd' l hl

theorem putNode_proj (st : SyncDB) (l : Nat) :
    (putNode st l).dbid =
      (if st.dbidOf l = 0 then (l, st.nextid) :: st.dbid else st.dbid) ∧
    (putNode st l).nextid =
      (if st.dbidOf l = 0 then st.nextid + 1 else st.nextid) ∧
    (putNode st l).parentOf = st.parentOf := by
  unfold putNode
  split <;> rename_i h <;> simp [h]

theorem parentOkB_congr (st st' : SyncDB) (l : Nat)
    (hd : st.dbid = st'.dbid) (hp : st.parentOf = st'.parentOf) :
    parentOkB st l = parentOkB st' l := by
  unfold parentOkB SyncDB.dbidOf
  rw [hd, hp]

theorem applyPuts_tableOps (ids : List Nat) (st : SyncDB) :
    (applyPuts st ids).tableOps = st.tableOps ++ ids.map TableOp.putRec := by
  induction ids generalizing st with
  | nil => simp [applyPuts]
  | cons l rest ih =>
    show (applyPuts (putNode st l) rest).tableOps = _
    rw [ih, putNode_tableOps]
    simp

theorem prp_congr (ids : List Nat) (st st' : SyncDB)
    (hd : st.dbid = st'.dbid) (hn : st.nextid = st'.nextid)
    (hp : st.parentOf = st'.parentOf) :
    PutsRespectParents st ids → PutsRespectParents st' ids := by
  induction ids generalizing st st' with
  | nil => intro _; trivial
  | cons l rest ih =>
    rintro ⟨h1, h2⟩
    have hc : st.dbidOf l = st'.dbidOf l := by
      unfold SyncDB.dbidOf; rw [hd]
    refine ⟨?_, ?_⟩
    · rw [← parentOkB_congr st st' l hd hp]; exact h1
    · have p := putNode_proj st l
      have p' := putNode_proj st' l
      refine ih (putNode st l) (putNode st' l) ?_ ?_ ?_ h2
      · rw [p.1, p'.1, hc, hd, hn]
      · rw [p.2.1, p'.2.1, hc, hn]
      · rw [p.2.2, p'.2.2, hp]

/-- C8 (amended): on a cache tick with a state-cache table present, the sync
active or in initial scan, and at least one queue nonempty, `cachenodes`
issues exactly: a `begin`, every queued deletion, a sequence of node writes in
which each written node's parent already had a DB row (or was the sync root)
at the moment of the write, and a `commit` — regardless of whether a residue
remains.  The residue is exactly the queued nodes that never became writable
(none of unknown type, each one still failing the parent gate), and a caching
failure is flagged exactly when the residue is nonempty. -/
theorem cachenodes_drains_after_deletions (st : SyncDB)
    (htab : st.hasStatecacheTable = true)
    (hstate : st.state = Syncstate.SYNC_ACTIVE ∨ st.state = Syncstate.SYNC_INITIALSCAN)
    (hne : st.deleteq ≠ [] ∨ st.insertq ≠ []) :
    ∃ puts : List Nat,
      (cachenodes st).tableOps =
        st.tableOps ++ [TableOp.beginTxn] ++ st.deleteq.map TableOp.delRec ++
          puts.map TableOp.putRec ++ [TableOp.commitTxn] ∧
      PutsRespectParents st puts ∧
      (∀ x ∈ puts, x ∈ st.insertq) ∧
      (cachenodes st).deleteq = [] ∧
      (∀ x ∈ (cachenodes st).insertq, x ∈ st.insertq) ∧
      (∀ x ∈ st.insertq,
        x ∈ (cachenodes st).insertq ∨ x ∈ puts ∨
          st.nodeTypeOf x = Nodetype.TYPE_UNKNOWN) ∧
      (∀ l ∈ (cachenodes st).insertq,
        (cachenodes st).nodeTypeOf l ≠ Nodetype.TYPE_UNKNOWN ∧
        parentOkB (cachenodes st) l = false) ∧
      ((cachenodes st).insertq ≠ [] → (cachenodes st).cachingFailure = true) ∧
      (st.cachingFailure = false → (cachenodes st).insertq = [] →
        (cachenodes st).cachingFailure = false) := by
  have hcond : st.hasStatecacheTable = true ∧
      (st.state = Syncstate.SYNC_ACTIVE ∨ st.state = Syncstate.SYNC_INITIALSCAN) ∧
      (st.deleteq ≠ [] ∨ st.insertq ≠ []) := ⟨htab, hstate, hne⟩
  obtain ⟨d1, d2, d3, d4, d5, d6⟩ :=
    drainFuel_spec ((beginAndDel st).insertq.length + 1) (beginAndDel st)
      (beginAndDel st).insertq
  have hR1 : (drainResult (beginAndDel st)).1 =
      applyPuts (beginAndDel st) (drainResult (beginAndDel st)).2.2 := d1
  have hPRPst : PutsRespectParents st (drainResult (beginAndDel st)).2.2 :=
    prp_congr _ (beginAndDel st) st rfl rfl rfl d2
  have hQsub : ∀ x ∈ (drainResult (beginAndDel st)).2.1, x ∈ st.insertq := d3
  have hPsub : ∀ x ∈ (drainResult (beginAndDel st)).2.2, x ∈ st.insertq := d4
  have hCover : ∀ x ∈ st.insertq,
      x ∈ (drainResult (beginAndDel st)).2.1 ∨
        x ∈ (drainResult (beginAndDel st)).2.2 ∨
        st.nodeTypeOf x = Nodetype.TYPE_UNKNOWN := d5
  have hRes : ∀ l ∈ (drainResult (beginAndDel st)).2.1,
      (drainResult (beginAndDel st)).1.nodeTypeOf l ≠ Nodetype.TYPE_UNKNOWN ∧
      parentOkB (drainResult (beginAndDel st)).1 l = false :=
    d6 (Nat.lt_succ_self _)
  have hun : cachenodes st =
      (if (afterCommit (beginAndDel st)).insertq = [] then afterCommit (beginAndDel st)
      else { afterCommit (beginAndDel st) with cachingFailure := true }) := by
    unfold cachenodes
    rw [if_pos hcond]
  have hAins : (afterCommit (beginAndDel st)).insertq =
      (drainResult (beginAndDel st)).2.1 := rfl
  have hAops : (afterCommit (beginAndDel st)).tableOps =
      st.tableOps ++ [TableOp.beginTxn] ++ st.deleteq.map TableOp.delRec ++
        (drainResult (beginAndDel st)).2.2.map TableOp.putRec ++ [TableOp.commitTxn] := by
    show (drainResult (beginAndDel st)).1.tableOps ++ [TableOp.commitTxn] = _
    rw [hR1, applyPuts_tableOps]
    rfl
  have hAdel : (afterCommit (beginAndDel st)).deleteq = [] := by
    show (drainResult (beginAndDel st)).1.deleteq = []
    rw [hR1]
    exact congrArg (fun p => p.2.2.2.1) (applyPuts_cacheAux _ _)
  have hAfail : (afterCommit (beginAndDel st)).cachingFailure = st.cachingFailure := by
    show (drainResult (beginAndDel st)).1.cachingFailure = st.cachingFailure
    rw [hR1]
    exact congrArg (fun p => p.2.2.2.2.2.2) (applyPuts_cacheAux _ _)
  have hAtype : ∀ l, (afterCommit (beginAndDel st)).nodeTypeOf l =
      (drainResult (beginAndDel st)).1.nodeTypeOf l := fun _ => rfl
  have hApark : ∀ l, parentOkB (afterCommit (beginAndDel st)) l =
      parentOkB (drainResult (beginAndDel st)).1 l :=
    fun l => parentOkB_congr _ _ l rfl rfl
  refine ⟨(drainResult (beginAndDel st)).2.2, ?_⟩
  by_cases hq : (afterCommit (beginAndDel st)).insertq = []
  · have hfin : cachenodes st = afterCommit (beginAndDel st) := by
      rw [hun, if_pos hq]
    rw [hfin]
    refine ⟨hAops, hPRPst, hPsub, hAdel, ?_, ?_, ?_, ?_, ?_⟩
    · rw [hAins]; exact hQsub
    · intro x hx
      rcases hCover x hx with h | h | h
      · exact Or.inl (by rw [hAins]; exact h)
      · exact Or.inr (Or.inl h)
      · exact Or.inr (Or.inr h)
    · intro l hl
      rw [hAins] at hl
      rw [hAtype l, hApark l]
      exact hRes l hl
    · intro hne'
      exact absurd hq hne'
    · intro h0 _
      rw [hAfail]
      exact h0
  · have hfin : cachenodes st =
        { afterCommit (beginAndDel st) with cachingFailure := true } := by
      rw [hun, if_neg hq]
    rw [hfin]
    have hBins : ({ afterCommit (beginAndDel st) with cachingFailure := true } :
        SyncDB).insertq = (drainResult (beginAndDel st)).2.1 := hAins
    refine ⟨hAops, hPRPst, hPsub, hAdel, ?_, ?_, ?_, ?_, ?_⟩
    · rw [hBins]; exact hQsub
    · intro x hx
      rcases hCover x hx with h | h | h
      · exact Or.inl (by rw [hBins]; exact h)
      · exact Or.inr (Or.inl h)
      · exact Or.inr (Or.inr h)
    · intro l hl
      rw [hBins] at hl
      have h1 : ({ afterCommit (beginAndDel st) with cachingFailure := true } :
          SyncDB).nodeTypeOf l = (drainResult (beginAndDel st)).1.nodeTypeOf l := rfl
      have h2 : parentOkB
          { afterCommit (beginAndDel st) with cachingFailure := true } l =
          parentOkB (drainResult (beginAndDel st)).1 l :=
        parentOkB_congr _ _ l rfl rfl
      rw [h1, h2]
      exact hRes l hl
    · intro _
      rfl
    · intro _ hinsnil
      exact absurd hinsnil hq

/-- Witness for the amended C8 at a concrete sync with queued work. -/
theorem cachenodes_drains_after_deletions_witness :
    ∃ puts : List Nat,
      (cachenodes sampleDrainSync).tableOps =
        sampleDrainSync.tableOps ++ [TableOp.beginTxn] ++
          sampleDrainSync.deleteq.map TableOp.delRec ++
          puts.map TableOp.putRec ++ [TableOp.commitTxn] ∧
      PutsRespectParents sampleDrainSync puts ∧
      (∀ x ∈ puts, x ∈ sampleDrainSync.insertq) ∧
      (cachenodes sampleDrainSync).deleteq = [] ∧
      (∀ x ∈ (cachenodes sampleDrainSync).insertq, x ∈ sampleDrainSync.insertq) ∧
      (∀ x ∈ sampleDrainSync.insertq,
        x ∈ (cachenodes sampleDrainSync).insertq ∨ x ∈ puts ∨
          sampleDrainSync.nodeTypeOf x = Nodetype.TYPE_UNKNOWN) ∧
      (∀ l ∈ (cachenodes sampleDrainSync).insertq,
        (cachenodes sampleDrainSync).nodeTypeOf l ≠ Nodetype.TYPE_UNKNOWN ∧
        parentOkB (cachenodes sampleDrainSync) l = false) ∧
      ((cachenodes sampleDrainSync).insertq ≠ [] →
        (cachenodes sampleDrainSync).cachingFailure = true) ∧
      (sampleDrainSync.cachingFailure = false →
        (cachenodes sampleDrainSync).insertq = [] →
        (cachenodes sampleDrainSync).cachingFailure = false) :=
  cachenodes_drains_after_deletions sampleDrainSync (by decide)
    (Or.inl (by decide)) (Or.inl (by decide))

/-- C8 counterexample: with the table present and the sync active but both
queues empty, `cachenodes` does nothing at all — in particular no commit is
issued, so "the commit is issued regardless" does not hold without the
queue-nonempty proviso. -/
theorem cachenodes_no_commit_when_queues_empty :
    cachenodes sampleActiveSync = sampleActiveSync ∧
    sampleActiveSync.hasStatecacheTable = true ∧
    sampleActiveSync.state = Syncstate.SYNC_ACTIVE ∧
    TableOp.commitTxn ∉ (cachenodes sampleActiveSync).tableOps := by
  decide

/-- C6: while `scansAndMovesComplete` is false, `resolve_delSyncNode` leaves
the row's `LocalNode` in place and destroys nothing, and
`resolve_cloudNodeGone` performs no filesystem action and leaves the row
untouched; the node is destroyed, and the debris move attempted, exactly when
the flag is true. -/
theorem deletions_gated_by_scansAndMovesComplete
    (n : Nat) (f ms s0 p0 : Bool) :
    resolve_delSyncNode false n =
      { syncNode := some n, nodeDestroyed := false, returnValue := false } ∧
    (resolve_delSyncNode f n).nodeDestroyed = f ∧
    resolve_cloudNodeGone false ms s0 p0 =
      { debrisMoveIssued := false, suppressRecursion := s0,
        parentFutureScan := p0, returnValue := false } ∧
    (resolve_cloudNodeGone f ms s0 p0).debrisMoveIssued = f := by
  cases f <;> cases ms <;> exact ⟨rfl, rfl, rfl, rfl⟩

/-- C9: a scan request whose target lies inside the local debris comes back
already complete with an empty result list and is never queued to the worker;
a worker receiving such a request likewise produces no results. -/
theorem scan_of_debris_path_complete_empty_unqueued
    (debris target : List String) (h : isContainingPathOf debris target = true)
    (ok : Bool) (known : List (String × FSNode)) (entries : List ScanEntry) :
    (scanServiceScan debris target).1.mComplete = true ∧
    (scanServiceScan debris target).1.mResults = [] ∧
    (scanServiceScan debris target).2 = false ∧
    workerScan debris target ok known entries = [] := by
  unfold scanServiceScan workerScan
  rw [h]
  exact ⟨rfl, rfl, rfl, rfl⟩

/-- Witness for C9 at a concrete debris-contained path. -/
theorem scan_of_debris_path_witness :
    (scanServiceScan ["root", ".debris"] ["root", ".debris", "2020-01-01"]).1.mComplete = true ∧
    (scanServiceScan ["root", ".debris"] ["root", ".debris", "2020-01-01"]).1.mResults = [] ∧
    (scanServiceScan ["root", ".debris"] ["root", ".debris", "2020-01-01"]).2 = false ∧
    workerScan ["root", ".debris"] ["root", ".debris", "2020-01-01"] true [] [] = [] :=
  scan_of_debris_path_complete_empty_unqueued
    ["root", ".debris"] ["root", ".debris", "2020-01-01"] (by decide) true [] []

/-- C2 (code defect): for a file whose size changed while type, fsid and
mtime stayed equal, `interrogate` *reuses* the stale stored fingerprint
instead of recomputing it, because `reuseFingerprint` compares `rhs.size`
with itself (sync.cpp:260); this contradicts the code's own comment
"Yep as fsid/mtime/size/type match" (sync.cpp:302). -/
theorem interrogate_reuses_stale_fingerprint_on_size_change :
    grownFileEntry.size ≠ knownFileEntry.size ∧
    grownFileEntry.type = knownFileEntry.type ∧
    grownFileEntry.fsid = knownFileEntry.fsid ∧
    grownFileEntry.mtime = knownFileEntry.mtime ∧
    reuseFingerprint knownFileEntry
      (interrogate [("a.txt", knownFileEntry)] grownFileEntry) = true ∧
    (interrogate [("a.txt", knownFileEntry)] grownFileEntry).fingerprint =
      some { size := 10, mtime := 1000, crc := 111 } ∧
    (interrogate [("a.txt", knownFileEntry)] grownFileEntry).fingerprint ≠
      some grownFileEntry.freshFingerprint := by
  decide

/-- `checkIfFileIsChanging` can never report a changing file: every branch,
the documented "Waiting..." ones included, returns `false` (the waiting
branch returns `NULL`). -/
theorem checkIfFileIsChanging_always_false (st0 : Option FileChangingState)
    (currentsecs : Int) (fileExists : Bool) (fsize fmtime : Int) (retry : Bool) :
    (checkIfFileIsChanging st0 currentsecs fileExists fsize fmtime retry).1 = false := by
  unfold checkIfFileIsChanging
  dsimp only
  repeat' split <;> try rfl

/-- C3 (code defect): a file re-checked one second after its previous check —
squarely inside the "checked too recently, waiting" branch, with the
60-second timeout not elapsed — still makes `checkIfFileIsChanging` return
`false` (the branch returns `NULL`), so the caller does *not* defer the move;
the map entry is kept, confirming the waiting branch was the one taken. -/
theorem checkIfFileIsChanging_waiting_branch_returns_false :
    (checkIfFileIsChanging (some recentCheckState) 101 true 5 1000 false).1 = false ∧
    (checkIfFileIsChanging (some recentCheckState) 101 true 5 1000 false).2 =
      some recentCheckState ∧
    moveDeferredForChangingFile true
      (checkIfFileIsChanging (some recentCheckState) 101 true 5 1000 false).1 = false := by
  decide

/-- C1: with all three row entries present and no move/rename detected, the
row is routed by the two `syncEqual` comparisons — both equal: the row is
synced and the `LocalNode` gets its `fsid` and `syncedCloudNodeHandle` from
the `fsNode` and `cloudNode`, queued for persistence exactly when either
differed; only cloud equal: upsync; only filesystem equal: downsync; neither:
user intervention.  `syncEqual` itself demands equal types and, for files,
an equal fingerprint. -/
theorem syncItem_all_present_routes_by_syncEqual
    (c : CloudNode) (s : LocalNode) (f : FSNode) :
    (syncEqualCN c s = true ↔
      (c.type = s.type ∧ (c.type = Nodetype.FILENODE → c.fingerprint = s.fingerprint))) ∧
    (syncEqualFS f s = true ↔
      (f.type = s.type ∧ (f.type = Nodetype.FILENODE → f.fingerprint = s.fingerprint))) ∧
    (syncEqualCN c s = true → syncEqualFS f s = true →
      ((syncItemAllPresent c s f).syncNode.fsid = f.fsid ∧
        (syncItemAllPresent c s f).syncNode.syncedCloudNodeHandle = c.nodehandle ∧
        (syncItemAllPresent c s f).rowSynced = true ∧
        ((syncItemAllPresent c s f).queuedToStatecache = true ↔
          (s.fsid ≠ f.fsid ∨ s.syncedCloudNodeHandle ≠ c.nodehandle)))) ∧
    (syncEqualCN c s = true → syncEqualFS f s = false →
      (syncItemAllPresent c s f).decision = SyncDecision.upsync) ∧
    (syncEqualCN c s = false → syncEqualFS f s = true →
      (syncItemAllPresent c s f).decision = SyncDecision.downsync) ∧
    (syncEqualCN c s = false → syncEqualFS f s = false →
      (syncItemAllPresent c s f).decision = SyncDecision.userIntervention) := by
  refine ⟨?_, ?_, ?_, ?_, ?_, ?_⟩
  · unfold syncEqualCN
    by_cases h1 : c.type = s.type
    · by_cases h2 : c.type = Nodetype.FILENODE
      · simp [h1, h2]
        tauto
      · simp [h1, h2]
        tauto
    · simp [h1]
  · unfold syncEqualFS
    by_cases h1 : f.type = s.type
    · by_cases h2 : f.type = Nodetype.FILENODE
      · simp [h1, h2]
        tauto
      · simp [h1, h2]
        tauto
    · simp [h1]
  · intro hc hf
    unfold syncItemAllPresent
    rw [hc, hf]
    have houter : (true && true) = true := rfl
    rw [if_pos houter]
    by_cases hd : s.fsid ≠ f.fsid ∨ s.syncedCloudNodeHandle ≠ c.nodehandle
    · rw [if_pos hd]
      refine ⟨rfl, rfl, rfl, ?_⟩
      exact ⟨fun _ => hd, fun _ => rfl⟩
    · rw [if_neg hd]
      push_neg at hd
      refine ⟨hd.1, hd.2, rfl, ?_⟩
      constructor
      · intro hq
        exact absurd hq Bool.false_ne_true
      · intro hor
        rcases hor with h | h
        · exact absurd hd.1 h
        · exact absurd hd.2 h
  · intro hc hf
    unfold syncItemAllPresent
    rw [hc, hf]
    rfl
  · intro hc hf
    unfold syncItemAllPresent
    rw [hc, hf]
    rfl
  · intro hc hf
    unfold syncItemAllPresent
    rw [hc, hf]
    rfl

/-- Witness for C1: at a concrete both-sides-equal row whose `fsid` and
handle differed, the row is synced, the ids are recorded and the node is
queued for persistence. -/
theorem syncItem_all_present_witness :
    (syncItemAllPresent sampleRowCloud sampleRowLocal sampleRowFs).syncNode.fsid =
      sampleRowFs.fsid ∧
    (syncItemAllPresent sampleRowCloud sampleRowLocal sampleRowFs).syncNode.syncedCloudNodeHandle =
      sampleRowCloud.nodehandle ∧
    (syncItemAllPresent sampleRowCloud sampleRowLocal sampleRowFs).rowSynced = true ∧
    ((syncItemAllPresent sampleRowCloud sampleRowLocal sampleRowFs).queuedToStatecache = true ↔
      (sampleRowLocal.fsid ≠ sampleRowFs.fsid ∨
        sampleRowLocal.syncedCloudNodeHandle ≠ sampleRowCloud.nodehandle)) :=
  (syncItem_all_present_routes_by_syncEqual sampleRowCloud sampleRowLocal
    sampleRowFs).2.2.1 (by decide) (by decide)

theorem ltByKey_true_iff (key : α → String) (a b : α) :
    ltByKey key a b = true ↔ key a < key b := by
  unfold ltByKey
  rw [decide_eq_true_eq, compare_lt_iff_lt]

theorem ltByKey_false_iff (key : α → String) (a b : α) :
    ltByKey key a b = false ↔ ¬ key a < key b := by
  unfold ltByKey
  rw [decide_eq_false_iff_not, compare_lt_iff_lt]

theorem ltByKey_asymm (key : α → String) (a b : α)
    (h : ltByKey key a b = true) : ltByKey key b a = false := by
  rw [ltByKey_true_iff] at h
  rw [ltByKey_false_iff]
  exact lt_asymm h

theorem ltByKey_trans (key : α → String) (a b c : α)
    (h1 : ltByKey key a b = true) (h2 : ltByKey key b c = true) :
    ltByKey key a c = true := by
  rw [ltByKey_true_iff] at h1 h2 ⊢
  exact lt_trans h1 h2

theorem ltByKey_antisymm (key : α → String) (a b : α)
    (h1 : ltByKey key a b = false) (h2 : ltByKey key b a = false) :
    key a = key b := by
  rw [ltByKey_false_iff] at h1 h2
  exact le_antisymm (not_lt.mp h2) (not_lt.mp h1)

theorem ltByKey_false_of_key_eq (key : α → String) (a b : α)
    (h : key a = key b) : ltByKey key a b = false := by
  rw [ltByKey_false_iff, h]
  exact lt_irrefl _

theorem ltByKey_true_of_false_ne (key : α → String) (a b : α)
    (h1 : ltByKey key b a = false) (h2 : key a ≠ key b) :
    ltByKey key a b = true := by
  rw [ltByKey_false_iff] at h1
  rw [ltByKey_true_iff]
  rcases lt_trichotomy (key a) (key b) with h | h | h
  · exact h
  · exact absurd h h2
  · exact absurd h h1

theorem insertByLt_perm (lt : α → α → Bool) (x : α) (ys : List α) :
    (insertByLt lt x ys).Perm (x :: ys) := by
  induction ys with
  | nil => exact List.Perm.refl _
  | cons y ys ih =>
    by_cases h : lt x y = true
    · rw [insertByLt, if_pos h]
    · rw [insertByLt, if_neg h]
      exact (ih.cons y).trans (List.Perm.swap x y ys)

theorem mem_insertByLt {lt : α → α → Bool} {x z : α} {ys : List α} :
    z ∈ insertByLt lt x ys ↔ z = x ∨ z ∈ ys := by
  rw [(insertByLt_perm lt x ys).mem_iff, List.mem_cons]

theorem insertByLt_sorted (lt : α → α → Bool)
    (hasym : ∀ a b, lt a b = true → lt b a = false)
    (htrans : ∀ a b c, lt a b = true → lt b c = true → lt a c = true)
    (x : α) (ys : List α) (hs : ys.Pairwise (fun a b => lt b a = false)) :
    (insertByLt lt x ys).Pairwise (fun a b => lt b a = false) := by
  induction ys with
  | nil => exact List.pairwise_singleton _ x
  | cons y ys ih =>
    rcases List.pairwise_cons.mp hs with ⟨hy, hys⟩
    by_cases hxy : lt x y = true
    · rw [insertByLt, if_pos hxy]
      refine List.pairwise_cons.mpr ⟨?_, hs⟩
      intro z hz
      rcases List.mem_cons.mp hz with rfl | hz'
      · exact hasym x z hxy
      · cases hzx : lt z x
        · rfl
        · have h1 := htrans z x y hzx hxy
          rw [hy z hz'] at h1
          exact absurd h1 Bool.false_ne_true
    · rw [insertByLt, if_neg hxy]
      refine List.pairwise_cons.mpr ⟨?_, ih hys⟩
      intro z hz
      rcases mem_insertByLt.mp hz with rfl | hz'
      · cases h : lt z y
        · rfl
        · exact absurd h hxy
      · exact hy z hz'

theorem foldl_insert_perm (lt : α → α → Bool) :
    ∀ (xs acc : List α),
      (xs.foldl (fun a x => insertByLt lt x a) acc).Perm (acc ++ xs) := by
  intro xs
  induction xs with
  | nil => intro acc; simp
  | cons x xs ih =>
    intro acc
    have h1 : (xs.foldl (fun a x => insertByLt lt x a) (insertByLt lt x acc)).Perm
        (insertByLt lt x acc ++ xs) := ih (insertByLt lt x acc)
    have h2 : (insertByLt lt x acc ++ xs).Perm ((x :: acc) ++ xs) :=
      (insertByLt_perm lt x acc).append_right xs
    have h3 : (acc ++ x :: xs).Perm (x :: (acc ++ xs)) := List.perm_middle
    exact (h1.trans h2).trans h3.symm

theorem sortByLt_perm (lt : α → α → Bool) (xs : List α) :
    (sortByLt lt xs).Perm xs := by
  have h := foldl_insert_perm lt xs []
  rw [List.nil_append] at h
  exact h

theorem sortByLt_sorted (lt : α → α → Bool)
    (hasym : ∀ a b, lt a b = true → lt b a = false)
    (htrans : ∀ a b c, lt a b = true → lt b c = true → lt a c = true)
    (xs : List α) :
    (sortByLt lt xs).Pairwise (fun a b => lt b a = false) := by
  suffices h : ∀ (ys acc : List α), acc.Pairwise (fun a b => lt b a = false) →
      (ys.foldl (fun a x => insertByLt lt x a) acc).Pairwise (fun a b => lt b a = false) by
    exact h xs [] List.Pairwise.nil
  intro ys
  induction ys with
  | nil => intro acc hacc; exact hacc
  | cons y ys ih =>
    intro acc hacc
    exact ih (insertByLt lt y acc) (insertByLt_sorted lt hasym htrans y acc hacc)

theorem insertByLt_append (lt : α → α → Bool) (x : α) (acc : List α)
    (h : ∀ y ∈ acc, lt x y = false) :
    insertByLt lt x acc = acc ++ [x] := by
  induction acc with
  | nil => rfl
  | cons y ys ih =>
    have hy : lt x y = false := h y (List.mem_cons_self y ys)
    rw [insertByLt, if_neg (by rw [hy]; exact Bool.false_ne_true)]
    rw [ih (fun z hz => h z (List.mem_cons_of_mem y hz))]
    rfl

theorem sortByLt_eq_self_of_no_lt (lt : α → α → Bool) (xs : List α)
    (h : ∀ a ∈ xs, ∀ b ∈ xs, lt a b = false) :
    sortByLt lt xs = xs := by
  suffices haux : ∀ (ys acc : List α),
      (∀ x ∈ ys, ∀ y ∈ acc ++ ys, lt x y = false) →
      ys.foldl (fun a x => insertByLt lt x a) acc = acc ++ ys by
    have h2 := haux xs [] (by intro x hx y hy; rw [List.nil_append] at hy; exact h x hx y hy)
    rw [List.nil_append] at h2
    exact h2
  intro ys
  induction ys with
  | nil => intro acc _; simp
  | cons x xs ih =>
    intro acc hp
    have hins : insertByLt lt x acc = acc ++ [x] :=
      insertByLt_append lt x acc (fun y hy =>
        hp x (List.mem_cons_self x xs) y (List.mem_append.mpr (Or.inl hy)))
    show xs.foldl (fun a x => insertByLt lt x a) (insertByLt lt x acc) = acc ++ x :: xs
    rw [hins, ih (acc ++ [x]) ?_, List.append_assoc]
    · rfl
    · intro z hz y hy
      refine hp z (List.mem_cons_of_mem x hz) y ?_
      rcases List.mem_append.mp hy with hy' | hy'
      · rcases List.mem_append.mp hy' with hy'' | hy''
        · exact List.mem_append.mpr (Or.inl hy'')
        · rw [List.mem_singleton] at hy''
          subst hy''
          exact List.mem_append.mpr (Or.inr (List.mem_cons_self y xs))
      · exact List.mem_append.mpr (Or.inr (List.mem_cons_of_mem x hy'))

theorem splitRun_append (p : α → Bool) (xs : List α) :
    (splitRun p xs).1 ++ (splitRun p xs).2 = xs := by
  induction xs with
  | nil => rfl
  | cons x xs ih =>
    by_cases h : p x = true
    · simp only [splitRun, if_pos h]
      rw [List.cons_append, ih]
    · simp only [splitRun, if_neg h]
      rfl

theorem splitRun_length2 (p : α → Bool) (xs : List α) :
    (splitRun p xs).2.length ≤ xs.length := by
  have h := congrArg List.length (splitRun_append p xs)
  rw [List.length_append] at h
  omega

theorem splitRun_all (p : α → Bool) (xs : List α)
    (h : ∀ x ∈ xs, p x = true) : splitRun p xs = (xs, []) := by
  induction xs with
  | nil => rfl
  | cons x xs ih =>
    simp only [splitRun, if_pos (h x (List.mem_cons_self x xs))]
    rw [ih (fun y hy => h y (List.mem_cons_of_mem x hy))]

theorem splitRun_not_head (p : α → Bool) (y : α) (ys : List α)
    (h : p y = false) : splitRun p (y :: ys) = ([], y :: ys) := by
  simp only [splitRun, h]
  rfl

theorem splitRun_sublist2 (p : α → Bool) (xs : List α) :
    (splitRun p xs).2.Sublist xs := by
  induction xs with
  | nil => exact List.Sublist.refl _
  | cons x xs ih =>
    by_cases h : p x = true
    · simp only [splitRun, if_pos h]
      exact ih.cons x
    · simp only [splitRun, if_neg h]
      exact List.Sublist.refl _

theorem splitRun_mem1 (p : α → Bool) (xs : List α) :
    ∀ y ∈ (splitRun p xs).1, p y = true := by
  induction xs with
  | nil => intro y hy; exact absurd hy (List.not_mem_nil y)
  | cons x xs ih =>
    by_cases h : p x = true
    · simp only [splitRun, if_pos h]
      intro y hy
      rcases List.mem_cons.mp hy with rfl | hy'
      · exact h
      · exact ih y hy'
    · simp only [splitRun, if_neg h]
      intro y hy
      exact absurd hy (List.not_mem_nil y)

theorem getLast?_cons_elim (x : α) (l : List α) :
    (x :: l).getLast? = (l.getLast?).elim (some x) some := by
  induction l generalizing x with
  | nil => rfl
  | cons z zs ih =>
    rw [List.getLast?_cons_cons, ih z]
    cases zs.getLast? <;> rfl

theorem foldl_lastMatch (p : α → Bool) (xs : List α) (init : Option α) :
    xs.foldl (fun acc i => if p i then some i else acc) init =
      ((xs.filter p).getLast?).elim init some := by
  induction xs generalizing init with
  | nil => rfl
  | cons x xs ih =>
    by_cases h : p x = true
    · rw [List.foldl_cons, if_pos h, List.filter_cons_of_pos h, ih,
        getLast?_cons_elim]
      cases (xs.filter p).getLast? <;> rfl
    · rw [List.foldl_cons, if_neg h, List.filter_cons_of_neg h, ih]

theorem rowFsElems_mkFsRow (run : List FSNode) (lopt : Option LocalNode)
    (h : run ≠ []) : rowFsElems (mkFsRow run lopt) = run := by
  cases run with
  | nil => exact absurd rfl h
  | cons x xs =>
    unfold mkFsRow rowFsElems
    by_cases hlen : 1 < (x :: xs).length
    · rw [if_pos hlen]
      rfl
    · rw [if_neg hlen]
      cases xs with
      | nil => rfl
      | cons y ys =>
        exfalso
        apply hlen
        have hl : (x :: y :: ys).length = ys.length + 2 := rfl
        omega

theorem rowLocElems_mkFsRow (run : List FSNode) (lopt : Option LocalNode) :
    rowLocElems (mkFsRow run lopt) = lopt.toList := by
  unfold mkFsRow rowLocElems
  split <;> rfl

theorem cloudFree_mkFsRow (run : List FSNode) (lopt : Option LocalNode) :
    CloudFree (mkFsRow run lopt) := by
  unfold mkFsRow CloudFree
  split <;> exact ⟨rfl, rfl⟩

theorem rowCloudElems_of_cloudFree (r : SyncRow) (h : CloudFree r) :
    rowCloudElems r = [] := by
  unfold rowCloudElems
  rw [h.2, h.1]
  rfl

theorem pairFsLocalF_consnil (fuel : Nat) (f : FSNode) (ftl : List FSNode) :
    pairFsLocalF (fuel + 1) (f :: ftl) [] =
      mkFsRow (f :: (splitRun (fun g => !(fsLt f g)) ftl).1) none ::
        pairFsLocalF fuel (splitRun (fun g => !(fsLt f g)) ftl).2 [] := rfl

theorem pairFsLocalF_nilcons (fuel : Nat) (l : LocalNode) (ltl : List LocalNode) :
    pairFsLocalF (fuel + 1) [] (l :: ltl) =
      { syncNode := some l } ::
        pairFsLocalF fuel [] (splitRun (fun m => !(locLt l m)) ltl).2 := rfl

theorem pairFsLocalF_conscons (fuel : Nat) (f : FSNode) (ftl : List FSNode)
    (l : LocalNode) (ltl : List LocalNode) :
    pairFsLocalF (fuel + 1) (f :: ftl) (l :: ltl) =
      (match compareFsLocal f l with
        | Ordering.lt =>
          mkFsRow (f :: (splitRun (fun g => !(fsLt f g)) ftl).1) none ::
            pairFsLocalF fuel (splitRun (fun g => !(fsLt f g)) ftl).2 (l :: ltl)
        | Ordering.gt =>
          { syncNode := some l } ::
            pairFsLocalF fuel (f :: ftl) (splitRun (fun m => !(locLt l m)) ltl).2
        | Ordering.eq =>
          mkFsRow (f :: (splitRun (fun g => !(fsLt f g)) ftl).1) (some l) ::
            pairFsLocalF fuel (splitRun (fun g => !(fsLt f g)) ftl).2
              (splitRun (fun m => !(locLt l m)) ltl).2) := rfl

theorem pairFsLocalF_conscons_lt (fuel : Nat) (f : FSNode) (ftl : List FSNode)
    (l : LocalNode) (ltl : List LocalNode) (h : compareFsLocal f l = Ordering.lt) :
    pairFsLocalF (fuel + 1) (f :: ftl) (l :: ltl) =
      mkFsRow (f :: (splitRun (fun g => !(fsLt f g)) ftl).1) none ::
        pairFsLocalF fuel (splitRun (fun g => !(fsLt f g)) ftl).2 (l :: ltl) := by
  rw [pairFsLocalF_conscons, h]

theorem pairFsLocalF_conscons_gt (fuel : Nat) (f : FSNode) (ftl : List FSNode)
    (l : LocalNode) (ltl : List LocalNode) (h : compareFsLocal f l = Ordering.gt) :
    pairFsLocalF (fuel + 1) (f :: ftl) (l :: ltl) =
      { syncNode := some l } ::
        pairFsLocalF fuel (f :: ftl) (splitRun (fun m => !(locLt l m)) ltl).2 := by
  rw [pairFsLocalF_conscons, h]

theorem pairFsLocalF_conscons_eq (fuel : Nat) (f : FSNode) (ftl : List FSNode)
    (l : LocalNode) (ltl : List LocalNode) (h : compareFsLocal f l = Ordering.eq) :
    pairFsLocalF (fuel + 1) (f :: ftl) (l :: ltl) =
      mkFsRow (f :: (splitRun (fun g => !(fsLt f g)) ftl).1) (some l) ::
        pairFsLocalF fuel (splitRun (fun g => !(fsLt f g)) ftl).2
          (splitRun (fun m => !(locLt l m)) ltl).2 := by
  rw [pairFsLocalF_conscons, h]

theorem pairFsLocalF_fsElems : ∀ (fuel : Nat) (fs : List FSNode) (loc : List LocalNode),
    fs.length + loc.length < fuel →
    (pairFsLocalF fuel fs loc).flatMap rowFsElems = fs := by
  intro fuel
  induction fuel with
  | zero => intro fs loc h; exact absurd h (Nat.not_lt_zero _)
  | succ fuel ih =>
    intro fs loc h
    match fs, loc with
    | [], [] => rfl
    | f :: ftl, [] =>
      rw [pairFsLocalF_consnil, List.flatMap_cons,
        rowFsElems_mkFsRow _ _ (List.cons_ne_nil f _),
        ih _ [] (by have := splitRun_length2 (fun g => !(fsLt f g)) ftl; simp at h ⊢; omega)]
      rw [List.cons_append, splitRun_append]
    | [], l :: ltl =>
      rw [pairFsLocalF_nilcons, List.flatMap_cons,
        ih [] _ (by have := splitRun_length2 (fun m => !(locLt l m)) ltl; simp at h ⊢; omega)]
      rfl
    | f :: ftl, l :: ltl =>
      have hlf := splitRun_length2 (fun g => !(fsLt f g)) ftl
      have hll := splitRun_length2 (fun m => !(locLt l m)) ltl
      have hlen : (f :: ftl).length + (l :: ltl).length = ftl.length + ltl.length + 2 := by
        simp [List.length_cons]
        omega
      cases hcmp : compareFsLocal f l with
      | lt =>
        rw [pairFsLocalF_conscons_lt fuel f ftl l ltl hcmp, List.flatMap_cons,
          rowFsElems_mkFsRow _ _ (List.cons_ne_nil f _),
          ih _ (l :: ltl) (by simp [List.length_cons] at h ⊢; omega)]
        rw [List.cons_append, splitRun_append]
      | gt =>
        rw [pairFsLocalF_conscons_gt fuel f ftl l ltl hcmp, List.flatMap_cons,
          ih (f :: ftl) _ (by simp [List.length_cons] at h ⊢; omega)]
        rfl
      | eq =>
        rw [pairFsLocalF_conscons_eq fuel f ftl l ltl hcmp, List.flatMap_cons,
          rowFsElems_mkFsRow _ _ (List.cons_ne_nil f _),
          ih _ _ (by simp [List.length_cons] at h ⊢; omega)]
        rw [List.cons_append, splitRun_append]

theorem locRun_singleton (l : LocalNode) (ltl : List LocalNode)
    (hsort : (l :: ltl).Pairwise (fun a b => locLt b a = false))
    (hdist : (l :: ltl).Pairwise (fun a b => a.name ≠ b.name)) :
    splitRun (fun m => !(locLt l m)) ltl = ([], ltl) := by
  cases ltl with
  | nil => rfl
  | cons m mtl =>
    apply splitRun_not_head
    have h1 : locLt m l = false :=
      (List.pairwise_cons.mp hsort).1 m (List.mem_cons_self m mtl)
    have h2 : l.name ≠ m.name :=
      (List.pairwise_cons.mp hdist).1 m (List.mem_cons_self m mtl)
    have h3 : locLt l m = true := ltByKey_true_of_false_ne LocalNode.name l m h1 h2
    rw [h3]
    rfl

theorem pairFsLocalF_locElems : ∀ (fuel : Nat) (fs : List FSNode) (loc : List LocalNode),
    fs.length + loc.length < fuel →
    loc.Pairwise (fun a b => locLt b a = false) →
    loc.Pairwise (fun a b => a.name ≠ b.name) →
    (pairFsLocalF fuel fs loc).flatMap rowLocElems = loc := by
  intro fuel
  induction fuel with
  | zero => intro fs loc h; exact absurd h (Nat.not_lt_zero _)
  | succ fuel ih =>
    intro fs loc h hsort hdist
    match fs, loc with
    | [], [] => rfl
    | f :: ftl, [] =>
      rw [pairFsLocalF_consnil, List.flatMap_cons, rowLocElems_mkFsRow,
        ih _ [] (by have := splitRun_length2 (fun g => !(fsLt f g)) ftl; simp at h ⊢; omega)
          List.Pairwise.nil List.Pairwise.nil]
      rfl
    | [], l :: ltl =>
      rw [pairFsLocalF_nilcons, List.flatMap_cons,
        locRun_singleton l ltl hsort hdist]
      rw [ih [] ltl (by simp [List.length_cons] at h ⊢; omega)
        (List.Pairwise.sublist (List.sublist_cons_self l ltl) hsort)
        (List.Pairwise.sublist (List.sublist_cons_self l ltl) hdist)]
      rfl
    | f :: ftl, l :: ltl =>
      have hlf := splitRun_length2 (fun g => !(fsLt f g)) ftl
      cases hcmp : compareFsLocal f l with
      | lt =>
        rw [pairFsLocalF_conscons_lt fuel f ftl l ltl hcmp, List.flatMap_cons,
          rowLocElems_mkFsRow,
          ih _ (l :: ltl) (by simp [List.length_cons] at h ⊢; omega) hsort hdist]
        rfl
      | gt =>
        rw [pairFsLocalF_conscons_gt fuel f ftl l ltl hcmp, List.flatMap_cons,
          locRun_singleton l ltl hsort hdist]
        rw [ih (f :: ftl) ltl (by simp [List.length_cons] at h ⊢; omega)
          (List.Pairwise.sublist (List.sublist_cons_self l ltl) hsort)
          (List.Pairwise.sublist (List.sublist_cons_self l ltl) hdist)]
        rfl
      | eq =>
        rw [pairFsLocalF_conscons_eq fuel f ftl l ltl hcmp, List.flatMap_cons,
          rowLocElems_mkFsRow,
          locRun_singleton l ltl hsort hdist]
        rw [ih _ ltl (by simp [List.length_cons] at h ⊢; omega)
          (List.Pairwise.sublist (List.sublist_cons_self l ltl) hsort)
          (List.Pairwise.sublist (List.sublist_cons_self l ltl) hdist)]
        rfl

theorem pairFsLocalF_cloudFree : ∀ (fuel : Nat) (fs : List FSNode) (loc : List LocalNode),
    ∀ r ∈ pairFsLocalF fuel fs loc, CloudFree r := by
  intro fuel
  induction fuel with
  | zero => intro fs loc r hr; exact absurd hr (List.not_mem_nil r)
  | succ fuel ih =>
    intro fs loc r hr
    match fs, loc with
    | [], [] => exact absurd hr (List.not_mem_nil r)
    | f :: ftl, [] =>
      rw [pairFsLocalF_consnil] at hr
      rcases List.mem_cons.mp hr with rfl | hr'
      · exact cloudFree_mkFsRow _ _
      · exact ih _ _ r hr'
    | [], l :: ltl =>
      rw [pairFsLocalF_nilcons] at hr
      rcases List.mem_cons.mp hr with rfl | hr'
      · exact ⟨rfl, rfl⟩
      · exact ih _ _ r hr'
    | f :: ftl, l :: ltl =>
      cases hcmp : compareFsLocal f l with
      | lt =>
        rw [pairFsLocalF_conscons_lt fuel f ftl l ltl hcmp] at hr
        rcases List.mem_cons.mp hr with rfl | hr'
        · exact cloudFree_mkFsRow _ _
        · exact ih _ _ r hr'
      | gt =>
        rw [pairFsLocalF_conscons_gt fuel f ftl l ltl hcmp] at hr
        rcases List.mem_cons.mp hr with rfl | hr'
        · exact ⟨rfl, rfl⟩
        · exact ih _ _ r hr'
      | eq =>
        rw [pairFsLocalF_conscons_eq fuel f ftl l ltl hcmp] at hr
        rcases List.mem_cons.mp hr with rfl | hr'
        · exact cloudFree_mkFsRow _ _
        · exact ih _ _ r hr'

theorem splitRun_mem1_sub (p : α → Bool) (xs : List α) (y : α)
    (hy : y ∈ (splitRun p xs).1) : y ∈ xs := by
  rw [← splitRun_append p xs]
  exact List.mem_append.mpr (Or.inl hy)

theorem splitRun_mem2_sub (p : α → Bool) (xs : List α) (y : α)
    (hy : y ∈ (splitRun p xs).2) : y ∈ xs := by
  rw [← splitRun_append p xs]
  exact List.mem_append.mpr (Or.inr hy)

theorem flatMap_nil_of_forall (f : α → List β) (l : List α)
    (h : ∀ x ∈ l, f x = []) : l.flatMap f = [] := by
  induction l with
  | nil => rfl
  | cons x xs ih =>
    rw [List.flatMap_cons, h x (List.mem_cons_self x xs),
      ih (fun y hy => h y (List.mem_cons_of_mem x hy))]
    rfl

theorem linkCloudF_nilcons (ci : Bool) (fuel : Nat) (t : SyncRow) (ttl : List SyncRow) :
    linkCloudF ci (fuel + 1) [] (t :: ttl) =
      (t :: (splitRun (fun u => !(rowLt ci t u)) ttl).1 ++
          (linkCloudF ci fuel [] (splitRun (fun u => !(rowLt ci t u)) ttl).2).1,
        (linkCloudF ci fuel [] (splitRun (fun u => !(rowLt ci t u)) ttl).2).2) := rfl

theorem linkCloudF_consnil (ci : Bool) (fuel : Nat) (r : CloudNode) (rtl : List CloudNode) :
    linkCloudF ci (fuel + 1) (r :: rtl) [] =
      (if 1 < (r :: (splitRun (fun u => !(cloudLt ci r u)) rtl).1).length then
        ((linkCloudF ci fuel (splitRun (fun u => !(cloudLt ci r u)) rtl).2 []).1,
          (linkCloudF ci fuel (splitRun (fun u => !(cloudLt ci r u)) rtl).2 []).2)
      else
        ((linkCloudF ci fuel (splitRun (fun u => !(cloudLt ci r u)) rtl).2 []).1,
          { cloudNode := some r } ::
            (linkCloudF ci fuel (splitRun (fun u => !(cloudLt ci r u)) rtl).2 []).2)) := rfl

theorem linkCloudF_conscons (ci : Bool) (fuel : Nat) (r : CloudNode)
    (rtl : List CloudNode) (t : SyncRow) (ttl : List SyncRow) :
    linkCloudF ci (fuel + 1) (r :: rtl) (t :: ttl) =
      (match fsCompare ci r.name (rowName t) with
        | Ordering.lt =>
          if 1 < (r :: (splitRun (fun u => !(cloudLt ci r u)) rtl).1).length then
            ((linkCloudF ci fuel (splitRun (fun u => !(cloudLt ci r u)) rtl).2 (t :: ttl)).1,
              (linkCloudF ci fuel (splitRun (fun u => !(cloudLt ci r u)) rtl).2 (t :: ttl)).2)
          else
            ((linkCloudF ci fuel (splitRun (fun u => !(cloudLt ci r u)) rtl).2 (t :: ttl)).1,
              { cloudNode := some r } ::
                (linkCloudF ci fuel (splitRun (fun u => !(cloudLt ci r u)) rtl).2 (t :: ttl)).2)
        | Ordering.gt =>
          (t :: (splitRun (fun u => !(rowLt ci t u)) ttl).1 ++
              (linkCloudF ci fuel (r :: rtl) (splitRun (fun u => !(rowLt ci t u)) ttl).2).1,
            (linkCloudF ci fuel (r :: rtl) (splitRun (fun u => !(rowLt ci t u)) ttl).2).2)
        | Ordering.eq =>
          if 1 < (r :: (splitRun (fun u => !(cloudLt ci r u)) rtl).1).length then
            ({ t with
                cloudClashingNames := t.cloudClashingNames ++
                  (r :: (splitRun (fun u => !(cloudLt ci r u)) rtl).1)
                cloudNode := lastHandleMatch
                  (r :: (splitRun (fun u => !(cloudLt ci r u)) rtl).1) t } ::
              (splitRun (fun u => !(rowLt ci t u)) ttl).1 ++
              (linkCloudF ci fuel (splitRun (fun u => !(cloudLt ci r u)) rtl).2
                (splitRun (fun u => !(rowLt ci t u)) ttl).2).1,
              (linkCloudF ci fuel (splitRun (fun u => !(cloudLt ci r u)) rtl).2
                (splitRun (fun u => !(rowLt ci t u)) ttl).2).2)
          else
            ({ t with cloudNode := some r } ::
              (splitRun (fun u => !(rowLt ci t u)) ttl).1 ++
              (linkCloudF ci fuel (splitRun (fun u => !(cloudLt ci r u)) rtl).2
                (splitRun (fun u => !(rowLt ci t u)) ttl).2).1,
              (linkCloudF ci fuel (splitRun (fun u => !(cloudLt ci r u)) rtl).2
                (splitRun (fun u => !(rowLt ci t u)) ttl).2).2)) := rfl

theorem cloudRun_singleton (ci : Bool) (r : CloudNode) (rtl : List CloudNode)
    (hsort : (r :: rtl).Pairwise (fun a b => cloudLt ci b a = false))
    (hdist : (r :: rtl).Pairwise (fun a b => normName ci a.name ≠ normName ci b.name)) :
    splitRun (fun u => !(cloudLt ci r u)) rtl = ([], rtl) := by
  cases rtl with
  | nil => rfl
  | cons m mtl =>
    apply splitRun_not_head
    have h1 : cloudLt ci m r = false :=
      (List.pairwise_cons.mp hsort).1 m (List.mem_cons_self m mtl)
    have h2 : normName ci r.name ≠ normName ci m.name :=
      (List.pairwise_cons.mp hdist).1 m (List.mem_cons_self m mtl)
    have h1' : ltByKey (fun n : CloudNode => normName ci n.name) m r = false := h1
    have h3 : cloudLt ci r m = true :=
      ltByKey_true_of_false_ne (fun n : CloudNode => normName ci n.name) r m h1' h2
    rw [h3]
    rfl

theorem map_cons_run_concat (f : α → β) (p : α → Bool) (t : α) (ttl rest1 : List α)
    (h : rest1.map f = (splitRun p ttl).2.map f) :
    ((t :: (splitRun p ttl).1) ++ rest1).map f = (t :: ttl).map f := by
  simp only [List.map_append, List.map_cons, List.cons_append]
  rw [h, ← List.map_append, splitRun_append]

theorem rowCloudElems_assign (t : SyncRow) (r : CloudNode) (h : CloudFree t) :
    rowCloudElems { t with cloudNode := some r } = [r] := by
  unfold rowCloudElems
  dsimp only
  rw [h.2]
  rfl

theorem linkCloudF_spec (ci : Bool) : ∀ (fuel : Nat) (rem : List CloudNode) (rows : List SyncRow),
    rem.length + rows.length < fuel →
    ((linkCloudF ci fuel rem rows).1.map stripCloud = rows.map stripCloud) ∧
    (∀ r ∈ (linkCloudF ci fuel rem rows).2, r.syncNode = none ∧ r.fsNode = none ∧
      r.fsClashingNames = [] ∧ r.cloudClashingNames = []) ∧
    (rem.Pairwise (fun a b => cloudLt ci b a = false) →
      rem.Pairwise (fun a b => normName ci a.name ≠ normName ci b.name) →
      (∀ t ∈ rows, CloudFree t) →
      ((linkCloudF ci fuel rem rows).1.flatMap rowCloudElems ++
        (linkCloudF ci fuel rem rows).2.flatMap rowCloudElems).Perm rem) := by
  intro fuel
  induction fuel with
  | zero => intro rem rows h; exact absurd h (Nat.not_lt_zero _)
  | succ fuel ih =>
    intro rem rows h
    match rem, rows with
    | [], [] =>
      refine ⟨rfl, ?_, ?_⟩
      · intro r hr; exact absurd hr (List.not_mem_nil r)
      · intro _ _ _; exact List.Perm.refl _
    | [], t :: ttl =>
      have hbound : (0 : Nat) + (splitRun (fun u => !(rowLt ci t u)) ttl).2.length < fuel := by
        have hlt := splitRun_length2 (fun u => !(rowLt ci t u)) ttl
        simp [List.length_cons] at h
        omega
      obtain ⟨i1, i2, i3⟩ := ih [] (splitRun (fun u => !(rowLt ci t u)) ttl).2 hbound
      rw [linkCloudF_nilcons]
      refine ⟨?_, i2, ?_⟩
      · dsimp only
        exact map_cons_run_concat stripCloud _ t ttl _ i1
      · intro _ _ hfree
        dsimp only
        have hfree1 : ∀ u ∈ (splitRun (fun u => !(rowLt ci t u)) ttl).1, CloudFree u :=
          fun u hu => hfree u (List.mem_cons_of_mem t (splitRun_mem1_sub _ ttl u hu))
        have hfree2 : ∀ u ∈ (splitRun (fun u => !(rowLt ci t u)) ttl).2, CloudFree u :=
          fun u hu => hfree u (List.mem_cons_of_mem t (splitRun_mem2_sub _ ttl u hu))
        have ht : rowCloudElems t = [] :=
          rowCloudElems_of_cloudFree t (hfree t (List.mem_cons_self t ttl))
        have hp1 : (splitRun (fun u => !(rowLt ci t u)) ttl).1.flatMap rowCloudElems = [] :=
          flatMap_nil_of_forall _ _
            (fun u hu => rowCloudElems_of_cloudFree u (hfree1 u hu))
        have hrest := i3 List.Pairwise.nil List.Pairwise.nil hfree2
        have hboth := List.append_eq_nil.mp hrest.eq_nil
        simp only [List.flatMap_append, List.flatMap_cons]
        rw [ht, hp1, hboth.1, hboth.2]
        simp only [List.append_nil, List.nil_append]
        exact List.Perm.refl _
    | r :: rtl, [] =>
      have hbound : (splitRun (fun u => !(cloudLt ci r u)) rtl).2.length + (0 : Nat) < fuel := by
        have hlr := splitRun_length2 (fun u => !(cloudLt ci r u)) rtl
        simp [List.length_cons] at h
        omega
      obtain ⟨i1, i2, i3⟩ := ih (splitRun (fun u => !(cloudLt ci r u)) rtl).2 [] hbound
      have hr1nil : (linkCloudF ci fuel (splitRun (fun u => !(cloudLt ci r u)) rtl).2 []).1 = [] := by
        cases hc : (linkCloudF ci fuel (splitRun (fun u => !(cloudLt ci r u)) rtl).2 []).1 with
        | nil => rfl
        | cons a as =>
          rw [hc] at i1
          exact absurd i1 (by simp)
      rw [linkCloudF_consnil]
      refine ⟨?_, ?_, ?_⟩
      · by_cases hrun : 1 < (r :: (splitRun (fun u => !(cloudLt ci r u)) rtl).1).length
        · rw [if_pos hrun]; exact i1
        · rw [if_neg hrun]; exact i1
      · by_cases hrun : 1 < (r :: (splitRun (fun u => !(cloudLt ci r u)) rtl).1).length
        · rw [if_pos hrun]; exact i2
        · rw [if_neg hrun]
          intro x hx
          rcases List.mem_cons.mp hx with rfl | hx'
          · exact ⟨rfl, rfl, rfl, rfl⟩
          · exact i2 x hx'
      · intro hsort hdist _
        have hsing := cloudRun_singleton ci r rtl hsort hdist
        rw [hsing] at hr1nil i3 ⊢
        dsimp only at hr1nil i3 ⊢
        rw [if_neg (show ¬ 1 < ([r] : List CloudNode).length by simp)]
        have i3x := i3 (List.Pairwise.sublist (List.sublist_cons_self r rtl) hsort)
          (List.Pairwise.sublist (List.sublist_cons_self r rtl) hdist)
          (fun t ht => absurd ht (List.not_mem_nil t))
        rw [hr1nil] at i3x ⊢
        rw [List.flatMap_nil, List.nil_append] at i3x
        have hre : rowCloudElems { cloudNode := some r } = [r] := rfl
        rw [List.flatMap_nil, List.nil_append, List.flatMap_cons, hre]
        simp only [List.singleton_append]
        exact List.Perm.cons r i3x
    | r :: rtl, t :: ttl =>
      have hlr := splitRun_length2 (fun u => !(cloudLt ci r u)) rtl
      have hlt := splitRun_length2 (fun u => !(rowLt ci t u)) ttl
      cases hcmp : fsCompare ci r.name (rowName t) with
      | lt =>
        have hbound : (splitRun (fun u => !(cloudLt ci r u)) rtl).2.length +
            (t :: ttl).length < fuel := by
          simp [List.length_cons] at h ⊢
          omega
        obtain ⟨i1, i2, i3⟩ := ih (splitRun (fun u => !(cloudLt ci r u)) rtl).2 (t :: ttl) hbound
        rw [linkCloudF_conscons, hcmp]
        dsimp only
        refine ⟨?_, ?_, ?_⟩
        · by_cases hrun : 1 < (r :: (splitRun (fun u => !(cloudLt ci r u)) rtl).1).length
          · rw [if_pos hrun]; exact i1
          · rw [if_neg hrun]; exact i1
        · by_cases hrun : 1 < (r :: (splitRun (fun u => !(cloudLt ci r u)) rtl).1).length
          · rw [if_pos hrun]; exact i2
          · rw [if_neg hrun]
            intro x hx
            rcases List.mem_cons.mp hx with rfl | hx'
            · exact ⟨rfl, rfl, rfl, rfl⟩
            · exact i2 x hx'
        · intro hsort hdist hfree
          have hsing := cloudRun_singleton ci r rtl hsort hdist
          rw [hsing] at i3 ⊢
          dsimp only at i3 ⊢
          rw [if_neg (show ¬ 1 < ([r] : List CloudNode).length by simp)]
          have i3x := i3 (List.Pairwise.sublist (List.sublist_cons_self r rtl) hsort)
            (List.Pairwise.sublist (List.sublist_cons_self r rtl) hdist) hfree
          have hre : rowCloudElems { cloudNode := some r } = [r] := rfl
          rw [List.flatMap_cons, hre]
          simp only [List.singleton_append]
          exact List.Perm.trans List.perm_middle (List.Perm.cons r i3x)
      | gt =>
        have hbound : (r :: rtl).length +
            (splitRun (fun u => !(rowLt ci t u)) ttl).2.length < fuel := by
          simp [List.length_cons] at h ⊢
          omega
        obtain ⟨i1, i2, i3⟩ := ih (r :: rtl) (splitRun (fun u => !(rowLt ci t u)) ttl).2 hbound
        rw [linkCloudF_conscons, hcmp]
        dsimp only
        refine ⟨?_, i2, ?_⟩
        · exact map_cons_run_concat stripCloud _ t ttl _ i1
        · intro hsort hdist hfree
          have hfree1 : ∀ u ∈ (splitRun (fun u => !(rowLt ci t u)) ttl).1, CloudFree u :=
            fun u hu => hfree u (List.mem_cons_of_mem t (splitRun_mem1_sub _ ttl u hu))
          have hfree2 : ∀ u ∈ (splitRun (fun u => !(rowLt ci t u)) ttl).2, CloudFree u :=
            fun u hu => hfree u (List.mem_cons_of_mem t (splitRun_mem2_sub _ ttl u hu))
          have ht : rowCloudElems t = [] :=
            rowCloudElems_of_cloudFree t (hfree t (List.mem_cons_self t ttl))
          have hp1 : (splitRun (fun u => !(rowLt ci t u)) ttl).1.flatMap rowCloudElems = [] :=
            flatMap_nil_of_forall _ _
              (fun u hu => rowCloudElems_of_cloudFree u (hfree1 u hu))
          have i3x := i3 hsort hdist hfree2
          simp only [List.flatMap_append, List.flatMap_cons]
          rw [ht, hp1]
          simp only [List.nil_append]
          exact i3x
      | eq =>
        have hbound : (splitRun (fun u => !(cloudLt ci r u)) rtl).2.length +
            (splitRun (fun u => !(rowLt ci t u)) ttl).2.length < fuel := by
          simp [List.length_cons] at h ⊢
          omega
        obtain ⟨i1, i2, i3⟩ := ih (splitRun (fun u => !(cloudLt ci r u)) rtl).2
          (splitRun (fun u => !(rowLt ci t u)) ttl).2 hbound
        rw [linkCloudF_conscons, hcmp]
        dsimp only
        refine ⟨?_, ?_, ?_⟩
        · by_cases hrun : 1 < (r :: (splitRun (fun u => !(cloudLt ci r u)) rtl).1).length
          · rw [if_pos hrun]
            have hst : stripCloud
                { t with
                  cloudClashingNames := t.cloudClashingNames ++
                    (r :: (splitRun (fun u => !(cloudLt ci r u)) rtl).1)
                  cloudNode := lastHandleMatch
                    (r :: (splitRun (fun u => !(cloudLt ci r u)) rtl).1) t } =
                stripCloud t := rfl
            rw [show (({ t with
                  cloudClashingNames := t.cloudClashingNames ++
                    (r :: (splitRun (fun u => !(cloudLt ci r u)) rtl).1)
                  cloudNode := lastHandleMatch
                    (r :: (splitRun (fun u => !(cloudLt ci r u)) rtl).1) t } ::
                (splitRun (fun u => !(rowLt ci t u)) ttl).1) ++
                (linkCloudF ci fuel (splitRun (fun u => !(cloudLt ci r u)) rtl).2
                  (splitRun (fun u => !(rowLt ci t u)) ttl).2).1).map stripCloud =
                ((t :: (splitRun (fun u => !(rowLt ci t u)) ttl).1) ++
                (linkCloudF ci fuel (splitRun (fun u => !(cloudLt ci r u)) rtl).2
                  (splitRun (fun u => !(rowLt ci t u)) ttl).2).1).map stripCloud
              from rfl]
            exact map_cons_run_concat stripCloud _ t ttl _ i1
          · rw [if_neg hrun]
            rw [show (({ t with cloudNode := some r } ::
                (splitRun (fun u => !(rowLt ci t u)) ttl).1) ++
                (linkCloudF ci fuel (splitRun (fun u => !(cloudLt ci r u)) rtl).2
                  (splitRun (fun u => !(rowLt ci t u)) ttl).2).1).map stripCloud =
                ((t :: (splitRun (fun u => !(rowLt ci t u)) ttl).1) ++
                (linkCloudF ci fuel (splitRun (fun u => !(cloudLt ci r u)) rtl).2
                  (splitRun (fun u => !(rowLt ci t u)) ttl).2).1).map stripCloud
              from rfl]
            exact map_cons_run_concat stripCloud _ t ttl _ i1
        · by_cases hrun : 1 < (r :: (splitRun (fun u => !(cloudLt ci r u)) rtl).1).length
          · rw [if_pos hrun]; exact i2
          · rw [if_neg hrun]; exact i2
        · intro hsort hdist hfree
          have hsing := cloudRun_singleton ci r rtl hsort hdist
          rw [hsing] at i3 ⊢
          dsimp only at i3 ⊢
          rw [if_neg (show ¬ 1 < ([r] : List CloudNode).length by simp)]
          have hfree1 : ∀ u ∈ (splitRun (fun u => !(rowLt ci t u)) ttl).1, CloudFree u :=
            fun u hu => hfree u (List.mem_cons_of_mem t (splitRun_mem1_sub _ ttl u hu))
          have hfree2 : ∀ u ∈ (splitRun (fun u => !(rowLt ci t u)) ttl).2, CloudFree u :=
            fun u hu => hfree u (List.mem_cons_of_mem t (splitRun_mem2_sub _ ttl u hu))
          have hp1 : (splitRun (fun u => !(rowLt ci t u)) ttl).1.flatMap rowCloudElems = [] :=
            flatMap_nil_of_forall _ _
              (fun u hu => rowCloudElems_of_cloudFree u (hfree1 u hu))
          have i3x := i3 (List.Pairwise.sublist (List.sublist_cons_self r rtl) hsort)
            (List.Pairwise.sublist (List.sublist_cons_self r rtl) hdist) hfree2
          simp only [List.flatMap_append, List.flatMap_cons]
          rw [rowCloudElems_assign t r (hfree t (List.mem_cons_self t ttl)), hp1]
          simp only [List.append_nil, List.nil_append, List.singleton_append,
            List.cons_append]
          exact List.Perm.cons r i3x

theorem rowNameS_stripCloud (r : SyncRow) : rowNameS (stripCloud r) = rowName r := by
  cases r with
  | mk c s f cc fc => cases s <;> cases f <;> rfl

theorem rowLt_strip (ci : Bool) (a b : SyncRow) :
    ltByKey (fun x => normName ci (rowNameS x)) (stripCloud a) (stripCloud b) =
      rowLt ci a b := by
  unfold ltByKey rowLt ltByKey
  simp only [rowNameS_stripCloud]

theorem rowFsElems_of_strip_eq (a b : SyncRow) (h : stripCloud a = stripCloud b) :
    rowFsElems a = rowFsElems b := by
  have h1 : a.fsNode = b.fsNode := congrArg (fun p => p.2.1) h
  have h2 : a.fsClashingNames = b.fsClashingNames := congrArg (fun p => p.2.2) h
  unfold rowFsElems
  rw [h1, h2]

theorem rowLocElems_of_strip_eq (a b : SyncRow) (h : stripCloud a = stripCloud b) :
    rowLocElems a = rowLocElems b := by
  have h1 : a.syncNode = b.syncNode := congrArg (fun p => p.1) h
  unfold rowLocElems
  rw [h1]

theorem flatMap_congr_of_map_eq (f : α → γ) (g : α → List β)
    (hg : ∀ a b, f a = f b → g a = g b) :
    ∀ (l1 l2 : List α), l1.map f = l2.map f → l1.flatMap g = l2.flatMap g := by
  intro l1
  induction l1 with
  | nil =>
    intro l2 h
    cases l2 with
    | nil => rfl
    | cons b l2 => exact absurd h (by simp)
  | cons a l1 ih =>
    intro l2 h
    cases l2 with
    | nil => exact absurd h (by simp)
    | cons b l2 =>
      rw [List.map_cons, List.map_cons] at h
      obtain ⟨h1, h2⟩ := List.cons.inj h
      rw [List.flatMap_cons, List.flatMap_cons, hg a b h1, ih l2 h2]

theorem computeSyncTriplets_eq (ci : Bool) (cloud : List CloudNode)
    (loc : List LocalNode) (fs : List FSNode) :
    computeSyncTriplets ci cloud loc fs =
      (linkCloudF ci
        ((sortByLt (cloudLt ci) cloud).length +
          (sortByLt (rowLt ci) (pairFsLocal (sortByLt fsLt fs) (sortByLt locLt loc))).length + 1)
        (sortByLt (cloudLt ci) cloud)
        (sortByLt (rowLt ci) (pairFsLocal (sortByLt fsLt fs) (sortByLt locLt loc)))).1 ++
      (linkCloudF ci
        ((sortByLt (cloudLt ci) cloud).length +
          (sortByLt (rowLt ci) (pairFsLocal (sortByLt fsLt fs) (sortByLt locLt loc))).length + 1)
        (sortByLt (cloudLt ci) cloud)
        (sortByLt (rowLt ci) (pairFsLocal (sortByLt fsLt fs) (sortByLt locLt loc)))).2 := rfl

/-- C4: totality of `computeSyncTriplets`, corrected.  Every filesystem input
is accounted to exactly one row unconditionally; every local input is
accounted to exactly one row provided local names are pairwise distinct (the
source silently drops the tail of a local tie-run); every cloud input is
accounted to exactly one row provided the normalised cloud names are pairwise
distinct (a cloud tie-run with no matching row is dropped entirely); and the
result is a prefix of rows sorted by the filesystem-dependent comparator
followed by the rows appended for unmatched cloud nodes, which the source
never sorts into place. -/
theorem computeSyncTriplets_totality (ci : Bool) (cloud : List CloudNode)
    (loc : List LocalNode) (fs : List FSNode)
    (hlocdist : loc.Pairwise (fun a b => a.name ≠ b.name))
    (hclouddist : cloud.Pairwise (fun a b => normName ci a.name ≠ normName ci b.name)) :
    ((computeSyncTriplets ci cloud loc fs).flatMap rowFsElems).Perm fs ∧
    ((computeSyncTriplets ci cloud loc fs).flatMap rowLocElems).Perm loc ∧
    ((computeSyncTriplets ci cloud loc fs).flatMap rowCloudElems).Perm cloud ∧
    ∃ u v, computeSyncTriplets ci cloud loc fs = u ++ v ∧
      u.Pairwise (fun x y => rowLt ci y x = false) ∧
      ∀ r ∈ v, r.syncNode = none ∧ r.fsNode = none ∧ r.fsClashingNames = [] ∧
        r.cloudClashingNames = [] := by
  have hperm_rows := sortByLt_perm (rowLt ci)
    (pairFsLocal (sortByLt fsLt fs) (sortByLt locLt loc))
  have hlocSperm := sortByLt_perm locLt loc
  have hfsSperm := sortByLt_perm fsLt fs
  have hremSperm := sortByLt_perm (cloudLt ci) cloud
  have hCF : ∀ t ∈ pairFsLocal (sortByLt fsLt fs) (sortByLt locLt loc), CloudFree t :=
    fun t ht => pairFsLocalF_cloudFree _ _ _ t ht
  have hCFS : ∀ t ∈ sortByLt (rowLt ci) (pairFsLocal (sortByLt fsLt fs) (sortByLt locLt loc)),
      CloudFree t := fun t ht => hCF t (hperm_rows.mem_iff.mp ht)
  have hremsort : (sortByLt (cloudLt ci) cloud).Pairwise
      (fun a b => cloudLt ci b a = false) :=
    sortByLt_sorted (cloudLt ci)
      (fun a b h => ltByKey_asymm (fun n : CloudNode => normName ci n.name) a b h)
      (fun a b c h1 h2 => ltByKey_trans (fun n : CloudNode => normName ci n.name) a b c h1 h2)
      cloud
  have hremdist : (sortByLt (cloudLt ci) cloud).Pairwise
      (fun a b => normName ci a.name ≠ normName ci b.name) :=
    (List.Perm.pairwise_iff (fun h => Ne.symm h) hremSperm).mpr hclouddist
  obtain ⟨i1, i2, i3p⟩ := linkCloudF_spec ci
    ((sortByLt (cloudLt ci) cloud).length +
      (sortByLt (rowLt ci) (pairFsLocal (sortByLt fsLt fs) (sortByLt locLt loc))).length + 1)
    (sortByLt (cloudLt ci) cloud)
    (sortByLt (rowLt ci) (pairFsLocal (sortByLt fsLt fs) (sortByLt locLt loc)))
    (Nat.lt_succ_self _)
  have i3 := i3p hremsort hremdist hCFS
  have hC : (pairFsLocal (sortByLt fsLt fs) (sortByLt locLt loc)).flatMap rowFsElems
      = sortByLt fsLt fs :=
    pairFsLocalF_fsElems _ _ _ (Nat.lt_succ_self _)
  have hlocsortS : (sortByLt locLt loc).Pairwise (fun a b => locLt b a = false) :=
    sortByLt_sorted locLt
      (fun a b h => ltByKey_asymm LocalNode.name a b h)
      (fun a b c h1 h2 => ltByKey_trans LocalNode.name a b c h1 h2) loc
  have hlocdistS : (sortByLt locLt loc).Pairwise (fun a b => a.name ≠ b.name) :=
    (List.Perm.pairwise_iff (fun h => Ne.symm h) hlocSperm).mpr hlocdist
  have hD : (pairFsLocal (sortByLt fsLt fs) (sortByLt locLt loc)).flatMap rowLocElems
      = sortByLt locLt loc :=
    pairFsLocalF_locElems _ _ _ (Nat.lt_succ_self _) hlocsortS hlocdistS
  have hBfs : (linkCloudF ci
      ((sortByLt (cloudLt ci) cloud).length +
        (sortByLt (rowLt ci) (pairFsLocal (sortByLt fsLt fs) (sortByLt locLt loc))).length + 1)
      (sortByLt (cloudLt ci) cloud)
      (sortByLt (rowLt ci)
        (pairFsLocal (sortByLt fsLt fs) (sortByLt locLt loc)))).2.flatMap rowFsElems = [] :=
    flatMap_nil_of_forall _ _ (fun r hr => by
      obtain ⟨h1, h2, h3, h4⟩ := i2 r hr
      unfold rowFsElems
      rw [h2, h3]
      rfl)
  have hBloc : (linkCloudF ci
      ((sortByLt (cloudLt ci) cloud).length +
        (sortByLt (rowLt ci) (pairFsLocal (sortByLt fsLt fs) (sortByLt locLt loc))).length + 1)
      (sortByLt (cloudLt ci) cloud)
      (sortByLt (rowLt ci)
        (pairFsLocal (sortByLt fsLt fs) (sortByLt locLt loc)))).2.flatMap rowLocElems = [] :=
    flatMap_nil_of_forall _ _ (fun r hr => by
      obtain ⟨h1, h2, h3, h4⟩ := i2 r hr
      unfold rowLocElems
      rw [h1]
      rfl)
  refine ⟨?_, ?_, ?_, ?_⟩
  · rw [computeSyncTriplets_eq, List.flatMap_append]
    rw [flatMap_congr_of_map_eq stripCloud rowFsElems rowFsElems_of_strip_eq _ _ i1]
    rw [hBfs, List.append_nil]
    refine (hperm_rows.flatMap_right rowFsElems).trans ?_
    rw [hC]
    exact hfsSperm
  · rw [computeSyncTriplets_eq, List.flatMap_append]
    rw [flatMap_congr_of_map_eq stripCloud rowLocElems rowLocElems_of_strip_eq _ _ i1]
    rw [hBloc, List.append_nil]
    refine (hperm_rows.flatMap_right rowLocElems).trans ?_
    rw [hD]
    exact hlocSperm
  · rw [computeSyncTriplets_eq, List.flatMap_append]
    exact i3.trans hremSperm
  · refine ⟨_, _, computeSyncTriplets_eq ci cloud loc fs, ?_, i2⟩
    have hrowsort : (sortByLt (rowLt ci)
        (pairFsLocal (sortByLt fsLt fs) (sortByLt locLt loc))).Pairwise
        (fun a b => rowLt ci b a = false) :=
      sortByLt_sorted (rowLt ci)
        (fun a b h => ltByKey_asymm (fun r => normName ci (rowName r)) a b h)
        (fun a b c h1 h2 => ltByKey_trans (fun r => normName ci (rowName r)) a b c h1 h2) _
    have h0 : (sortByLt (rowLt ci)
        (pairFsLocal (sortByLt fsLt fs) (sortByLt locLt loc))).Pairwise
        (fun a b =>
          ltByKey (fun x => normName ci (rowNameS x)) (stripCloud b) (stripCloud a) = false) :=
      hrowsort.imp (fun hab => (rowLt_strip ci _ _).trans hab)
    have h1m : ((sortByLt (rowLt ci)
        (pairFsLocal (sortByLt fsLt fs) (sortByLt locLt loc))).map stripCloud).Pairwise
        (fun p q => ltByKey (fun x => normName ci (rowNameS x)) q p = false) :=
      List.pairwise_map.mpr h0
    rw [← i1] at h1m
    have h2m := List.pairwise_map.mp h1m
    exact h2m.imp (fun hab => (rowLt_strip ci _ _).symm.trans hab)

theorem pairFsLocalF_nilnil (fuel : Nat) : pairFsLocalF fuel [] [] = [] := by
  cases fuel <;> rfl

theorem linkCloudF_nilnil (ci : Bool) (fuel : Nat) :
    linkCloudF ci fuel [] [] = ([], []) := by
  cases fuel <;> rfl

theorem sortByLt_singleton (lt : α → α → Bool) (x : α) : sortByLt lt [x] = [x] := rfl

/-- C5: tie-run clash behaviour of `computeSyncTriplets`, corrected.  A
filesystem (resp. cloud) tie-run longer than one is recorded wholesale in the
row's `fsClashingNames` (resp. `cloudClashingNames`), and the row's `fsNode`
(resp. `cloudNode`) pointer is set to the LAST entry of the run whose `fsid`
matches the `syncNode`'s (resp. whose handle matches the `syncNode`'s
`syncedCloudNodeHandle`) — `none` only when no entry matches; the source
performs no exactly-one-match test. -/
theorem computeSyncTriplets_clash_runs (ci : Bool) (l : LocalNode)
    (run : List FSNode) (crun : List CloudNode)
    (hrun : 1 < run.length) (hnm : ∀ f ∈ run, f.localname = l.name)
    (hcrun : 1 < crun.length)
    (hcnm : ∀ c ∈ crun, normName ci c.name = normName ci l.localname) :
    computeSyncTriplets ci [] [l] run =
      [{ syncNode := some l, fsNode := lastFsidMatch run (some l),
         fsClashingNames := run }] ∧
    computeSyncTriplets ci crun [l] [] =
      [{ syncNode := some l,
         cloudNode := lastHandleMatch crun { syncNode := some l },
         cloudClashingNames := crun }] ∧
    lastFsidMatch run (some l) = (run.filter (fsidMatchesB (some l))).getLast? ∧
    lastHandleMatch crun { syncNode := some l } =
      (crun.filter (handleMatchesB (some l))).getLast? := by
  refine ⟨?_, ?_, ?_, ?_⟩
  · cases run with
    | nil => exact absurd hrun (by simp)
    | cons f ftl =>
      have hflt : ∀ g ∈ ftl, fsLt f g = false := fun g hg =>
        ltByKey_false_of_key_eq FSNode.localname f g
          (by rw [hnm f (List.mem_cons_self f ftl), hnm g (List.mem_cons_of_mem f hg)])
      have hsortrun : sortByLt fsLt (f :: ftl) = f :: ftl :=
        sortByLt_eq_self_of_no_lt fsLt (f :: ftl) (fun a ha b hb =>
          ltByKey_false_of_key_eq FSNode.localname a b (by rw [hnm a ha, hnm b hb]))
      have hcmp : compareFsLocal f l = Ordering.eq := by
        unfold compareFsLocal
        rw [hnm f (List.mem_cons_self f ftl), compare_eq_iff_eq]
      have hpair : pairFsLocal (f :: ftl) [l] = [mkFsRow (f :: ftl) (some l)] := by
        show pairFsLocalF (ftl.length + 2 + 1) (f :: ftl) [l] =
          [mkFsRow (f :: ftl) (some l)]
        rw [pairFsLocalF_conscons_eq (ftl.length + 2) f ftl l [] hcmp]
        rw [splitRun_all (fun g => !(fsLt f g)) ftl (fun g hg => by simp [hflt g hg])]
        rw [show splitRun (fun m => !(locLt l m)) ([] : List LocalNode) = ([], []) from rfl]
        dsimp only
        rw [pairFsLocalF_nilnil]
      have hmk : mkFsRow (f :: ftl) (some l) =
          { syncNode := some l, fsNode := lastFsidMatch (f :: ftl) (some l),
            fsClashingNames := f :: ftl } := by
        unfold mkFsRow
        rw [if_pos hrun]
      rw [computeSyncTriplets_eq, hsortrun,
        show sortByLt locLt [l] = [l] from rfl, hpair, hmk]
      rfl
  · cases crun with
    | nil => exact absurd hcrun (by simp)
    | cons r rtl =>
      have hclt : ∀ u ∈ rtl, cloudLt ci r u = false := fun u hu =>
        ltByKey_false_of_key_eq (fun n : CloudNode => normName ci n.name) r u
          ((hcnm r (List.mem_cons_self r rtl)).trans
            (hcnm u (List.mem_cons_of_mem r hu)).symm)
      have hsortcrun : sortByLt (cloudLt ci) (r :: rtl) = r :: rtl :=
        sortByLt_eq_self_of_no_lt (cloudLt ci) (r :: rtl) (fun a ha b hb =>
          ltByKey_false_of_key_eq (fun n : CloudNode => normName ci n.name) a b
            ((hcnm a ha).trans (hcnm b hb).symm))
      have hcmpC : fsCompare ci r.name (rowName { syncNode := some l }) = Ordering.eq := by
        unfold fsCompare
        rw [show rowName { syncNode := some l } = l.localname from rfl]
        rw [hcnm r (List.mem_cons_self r rtl), compare_eq_iff_eq]
      have hlink : linkCloudF ci
          ((r :: rtl).length + ([{ syncNode := some l }] : List SyncRow).length + 1)
          (r :: rtl) [{ syncNode := some l }] =
          ([{ syncNode := some l,
              cloudNode := lastHandleMatch (r :: rtl) { syncNode := some l },
              cloudClashingNames := r :: rtl }], []) := by
        show linkCloudF ci (rtl.length + 2 + 1) (r :: rtl) [{ syncNode := some l }] = _
        rw [linkCloudF_conscons, hcmpC]
        dsimp only
        rw [splitRun_all (fun u => !(cloudLt ci r u)) rtl
          (fun u hu => by simp [hclt u hu])]
        rw [show splitRun (fun u => !(rowLt ci { syncNode := some l } u))
          ([] : List SyncRow) = ([], []) from rfl]
        dsimp only
        rw [if_pos (show 1 < (r :: rtl).length from hcrun), linkCloudF_nilnil]
        rfl
      rw [computeSyncTriplets_eq, hsortcrun,
        show sortByLt fsLt ([] : List FSNode) = [] from rfl,
        show sortByLt locLt [l] = [l] from rfl,
        show pairFsLocal ([] : List FSNode) [l] = [({ syncNode := some l } : SyncRow)]
          from rfl,
        sortByLt_singleton (rowLt ci) ({ syncNode := some l } : SyncRow), hlink]
      rfl
  · rw [show lastFsidMatch run (some l) = run.foldl
      (fun acc i => if fsidMatchesB (some l) i then some i else acc) none from rfl,
      foldl_lastMatch]
    cases (run.filter (fsidMatchesB (some l))).getLast? <;> rfl
  · rw [show lastHandleMatch crun { syncNode := some l } = crun.foldl
      (fun acc i => if handleMatchesB (some l) i then some i else acc) none from rfl,
      foldl_lastMatch]
    cases (crun.filter (handleMatchesB (some l))).getLast? <;> rfl

/-- Witness for `computeSyncTriplets_totality` at concrete singleton
inputs. -/
theorem computeSyncTriplets_totality_witness :
    (([c4locB] : List LocalNode).Pairwise (fun a b => a.name ≠ b.name) ∧
      ([c4cloudC] : List CloudNode).Pairwise
        (fun a b => normName false a.name ≠ normName false b.name)) ∧
    (((computeSyncTriplets false [c4cloudC] [c4locB] [c4fsA]).flatMap
        rowFsElems).Perm [c4fsA] ∧
      ((computeSyncTriplets false [c4cloudC] [c4locB] [c4fsA]).flatMap
        rowLocElems).Perm [c4locB] ∧
      ((computeSyncTriplets false [c4cloudC] [c4locB] [c4fsA]).flatMap
        rowCloudElems).Perm [c4cloudC] ∧
      ∃ u v, computeSyncTriplets false [c4cloudC] [c4locB] [c4fsA] = u ++ v ∧
        u.Pairwise (fun x y => rowLt false y x = false) ∧
        ∀ r ∈ v, r.syncNode = none ∧ r.fsNode = none ∧ r.fsClashingNames = [] ∧
          r.cloudClashingNames = []) :=
  ⟨⟨by decide, by decide⟩,
    computeSyncTriplets_totality false [c4cloudC] [c4locB] [c4fsA]
      (by decide) (by decide)⟩

/-- Counterexample to C4 as stated: a second local child with the same name
is accounted to no row; the appended cloud-only row breaks the claimed sort
order; an unmatched cloud tie-run is accounted to no row; and on a
case-insensitive volume two rows share one local-name equivalence class. -/
theorem computeSyncTriplets_totality_counterexample :
    ¬ ((computeSyncTriplets false [] [c4dupA, c4dupB] []).flatMap
        rowLocElems).Perm [c4dupA, c4dupB] ∧
    ¬ (computeSyncTriplets false [c4cloudA] [c4locB] []).Pairwise
        (fun x y => rowLtSpec false y x = false) ∧
    ¬ ((computeSyncTriplets false [c4cx1, c4cx2] [] []).flatMap
        rowCloudElems).Perm [c4cx1, c4cx2] ∧
    (computeSyncTriplets true [] [c4locREADME, c4locreadme] []).map
      (fun r => normName true (rowName r)) = ["readme", "readme"] := by
  decide

/-- Witness for `computeSyncTriplets_clash_runs` on two-element runs. -/
theorem computeSyncTriplets_clash_runs_witness :
    (1 < ([c5wf1, c5wf2] : List FSNode).length ∧
      (∀ f ∈ ([c5wf1, c5wf2] : List FSNode), f.localname = c5loc.name) ∧
      1 < ([c5wc1, c5wc2] : List CloudNode).length ∧
      (∀ c ∈ ([c5wc1, c5wc2] : List CloudNode),
        normName false c.name = normName false c5loc.localname)) ∧
    (computeSyncTriplets false [] [c5loc] [c5wf1, c5wf2] =
        [{ syncNode := some c5loc, fsNode := lastFsidMatch [c5wf1, c5wf2] (some c5loc),
           fsClashingNames := [c5wf1, c5wf2] }] ∧
      computeSyncTriplets false [c5wc1, c5wc2] [c5loc] [] =
        [{ syncNode := some c5loc,
           cloudNode := lastHandleMatch [c5wc1, c5wc2] { syncNode := some c5loc },
           cloudClashingNames := [c5wc1, c5wc2] }] ∧
      lastFsidMatch [c5wf1, c5wf2] (some c5loc) =
        ([c5wf1, c5wf2].filter (fsidMatchesB (some c5loc))).getLast? ∧
      lastHandleMatch [c5wc1, c5wc2] { syncNode := some c5loc } =
        ([c5wc1, c5wc2].filter (handleMatchesB (some c5loc))).getLast?) :=
  ⟨⟨by decide, by decide, by decide, by decide⟩,
    computeSyncTriplets_clash_runs false c5loc [c5wf1, c5wf2] [c5wc1, c5wc2]
      (by decide) (by decide) (by decide) (by decide)⟩

/-- Counterexample to C5 as stated: both clashing entries match the
`syncNode`'s fsid, yet `fsNode` is set — to the last match — rather than left
null for lack of a unique match. -/
theorem computeSyncTriplets_clash_counterexample :
    computeSyncTriplets false [] [c5loc] [c5f1, c5f2] =
      [{ syncNode := some c5loc, fsNode := some c5f2,
         fsClashingNames := [c5f1, c5f2] }] ∧
    ([c5f1, c5f2].filter (fsidMatchesB (some c5loc))).length = 2 := by
  decide

end Mega
